import Mathlib

/-!
# TheRoofDoctors: the measurement core

A shallow embedding of `src/TheRoofDoctors/utils/measure.js`, of the `calibrate`
handler of `src/MeasureScreen.js` and of `src/utils/price.js`.

JavaScript numbers are idealised: the functions that use only `+ - * /`, comparisons,
`Math.abs`, `Math.min` and `Math.max` are written over an arbitrary linearly ordered
field `α` (they run on `ℚ`); the functions that reach `Math.sqrt`, `Math.atan` or
`Math.PI` are written over `ℝ`. Rounding and the infinities are outside the model. `NaN`
appears in one place only: a currency conversion with a code under which the rate table
holds no number yields `none`. The rate table is a plain object: besides the five keys
written in it, a lookup finds the members every object inherits from
`Object.prototype`. Such a member is a function or an object: it is truthy, and
arithmetic on it yields `NaN`.
-/

namespace RoofDoctors

/-! ## Data model -/

/-- A captured point `{ x, y }` in pixel coordinates. -/
structure Point (α : Type) where
  x : α
  y : α
deriving DecidableEq

/-- The element `points[i]`. The loops of the program only read indices below
`points.length`; the fallback value is never observed by them. -/
def pointAt {α : Type} [Zero α] (points : List (Point α)) (i : Nat) : Point α :=
  points.getD i ⟨0, 0⟩

/-- The object `{ meters, feet }` returned by `convertUnits` for a length. -/
structure Length (α : Type) where
  meters : α
  feet : α

/-- The object `{ sqm, sqft }` returned by `convertUnits` for an area. -/
structure Area (α : Type) where
  sqm : α
  sqft : α

/-- The object returned by `getBoundingBox`. -/
structure BBox (α : Type) where
  minX : α
  minY : α
  maxX : α
  maxY : α
  width : α
  height : α

/-- The object `{ pitchRatio, pitchDegrees }` returned by `calculateRoofPitch`. -/
structure Pitch where
  pitchRatio : ℝ
  pitchDegrees : ℝ

/-- The third argument of `convertUnits`: the strings `'length'` and `'area'`, and
any other string. -/
inductive UnitType where
  | length
  | area
  | other
deriving DecidableEq

/-- The options object of `measureRoof`; `none` is a key that is not given. -/
structure Opts where
  pricePerSqm : Option ℝ
  pricePerSqft : Option ℝ
  baseMeters : Option ℝ
  heightMeters : Option ℝ

/-- The empty options object `{}`. -/
def Opts.empty : Opts := ⟨none, none, none, none⟩

/-- The object returned by `measureRoof`. A field that is `none` is a key the object
does not have. `error` is always a key: `none` is `null`, `some msg` a message. The
keys `pitch` and `price` hold `some none` when they are present with value `null`. -/
structure MeasurementResult where
  areaPx : Option ℝ
  perimeterPx : Option ℝ
  area : Option (Area ℝ)
  perimeter : Option (Length ℝ)
  bbox : Option (BBox ℝ)
  centroid : Option (Point ℝ)
  edgesPx : Option (List ℝ)
  edgesMeters : Option (List ℝ)
  pitch : Option (Option Pitch)
  price : Option (Option ℝ)
  points : Option (List (Point ℝ))
  error : Option String

/-- The object literal `{ error: msg }`: the error key and nothing else. -/
def MeasurementResult.failure (msg : String) : MeasurementResult :=
  ⟨none, none, none, none, none, none, none, none, none, none, none, some msg⟩

/-! ## Polygon helpers (`measure.js`) -/

section Field

variable {α : Type} [LinearOrderedField α]

/-- Shoelace area in square pixels: `polygonAreaPx` (measure.js 11-20).
`none` is a missing list (`!points`). -/
def polygonAreaPx (points : Option (List (Point α))) : α :=
  match points with
  | none => 0
  | some pts =>
    if pts.length < 3 then 0
    else
      let area := (List.range pts.length).foldl (fun area i =>
        let j := (i + 1) % pts.length
        area + (pointAt pts i).x * (pointAt pts j).y
          - (pointAt pts j).x * (pointAt pts i).y) 0
      |area| / 2

/-- Vertex average: `polygonCentroid` (measure.js 44-51). On the empty list the
program divides 0 by 0 and gets `NaN`, which is outside the model. -/
def polygonCentroid (points : List (Point α)) : Point α :=
  let x := (List.range points.length).foldl (fun x i => x + (pointAt points i).x) 0
  let y := (List.range points.length).foldl (fun y i => y + (pointAt points i).y) 0
  ⟨x / points.length, y / points.length⟩

/-- The call `Math.min(...xs)`. With no argument the program gets `Infinity`, which
is no number of the model: `none`. -/
def mathMin : List α → Option α
  | [] => none
  | x :: xs => some (xs.foldl min x)

/-- The call `Math.max(...xs)`; `none` stands for `-Infinity` on no argument. -/
def mathMax : List α → Option α
  | [] => none
  | x :: xs => some (xs.foldl max x)

/-- Bounding box: `getBoundingBox` (measure.js 54-65). -/
def getBoundingBox (points : List (Point α)) : Option (BBox α) :=
  let xs := points.map fun p => p.x
  let ys := points.map fun p => p.y
  match mathMin xs, mathMin ys, mathMax xs, mathMax ys with
  | some minX, some minY, some maxX, some maxY =>
    some ⟨minX, minY, maxX, maxY, maxX - minX, maxY - minY⟩
  | _, _, _, _ => none

/-- The orientation test `ccw`, local to `linesIntersect` (measure.js 76-78). -/
def ccw (p1 p2 p3 : Point α) : Bool :=
  decide ((p3.y - p1.y) * (p2.x - p1.x) > (p2.y - p1.y) * (p3.x - p1.x))

/-- The segment test `linesIntersect`, local to `isSelfIntersecting`
(measure.js 75-80). -/
def linesIntersect (a b c d : Point α) : Bool :=
  (ccw a c d != ccw b c d) && (ccw a b c != ccw a b d)

/-- Self-intersection check: `isSelfIntersecting` (measure.js 74-90). The outer loop
runs `i` over `0 .. n-1`, the inner one `j` over `i+1 .. n-1`; the first crossing
returns `true`. -/
def isSelfIntersecting (points : List (Point α)) : Bool :=
  (List.range points.length).any fun i =>
    let a := pointAt points i
    let b := pointAt points ((i + 1) % points.length)
    (List.range' (i + 1) (points.length - (i + 1))).any fun j =>
      let c := pointAt points j
      let d := pointAt points ((j + 1) % points.length)
      if Int.natAbs ((i : ℤ) - (j : ℤ)) ≤ 1 ∨ (i = 0 ∧ j = points.length - 1) then false
      else linesIntersect a b c d

/-- Bounding-box overlap of two polygons: `doPolygonsOverlap` (measure.js 93-103). The
box of an empty polygon has `maxX = -Infinity` and `minX = Infinity`, so the first
comparison that involves it holds and the result is `false`. -/
def doPolygonsOverlap (polyA polyB : List (Point α)) : Bool :=
  match getBoundingBox polyA, getBoundingBox polyB with
  | some boxA, some boxB =>
    !(decide (boxA.maxX < boxB.minX) || decide (boxA.minX > boxB.maxX)
      || decide (boxA.maxY < boxB.minY) || decide (boxA.minY > boxB.maxY))
  | _, _ => false

/-- The type of the value `convertUnits` returns for each `type` argument. -/
@[reducible] def Converted (α : Type) : UnitType → Type
  | .length => Length α
  | .area => Area α
  | .other => α

/-- Unit conversion: `convertUnits` (measure.js 106-119). -/
def convertUnits (value metersPerPx : α) (type : UnitType) : Converted α type :=
  match type with
  | .length => (⟨value * metersPerPx, value * metersPerPx * 3.28084⟩ : Length α)
  | .area => (⟨value * metersPerPx ^ 2, value * (metersPerPx * 3.28084) ^ 2⟩ : Area α)
  | .other => value

/-- Pricing: `calculatePrice(area, pricePerSqm = 50, pricePerSqft = null)`
(measure.js 130-135). An argument that is `none` is `undefined`; a number is truthy
when it is not zero. -/
def calculatePrice (area : Area α) (pricePerSqm pricePerSqft : Option α) : α :=
  let pricePerSqm := pricePerSqm.getD 50
  let price := if pricePerSqm ≠ 0 then area.sqm * pricePerSqm else 0
  match pricePerSqft with
  | some perSqft => if perSqft ≠ 0 then area.sqft * perSqft else price
  | none => price

end Field

/-- JavaScript truthiness of an optional number: given and not zero. -/
noncomputable def truthy (v : Option ℝ) : Bool :=
  match v with
  | some r => decide (r ≠ 0)
  | none => false

/-- Euclidean distance: `distance` (measure.js 6-8). -/
noncomputable def distance (p1 p2 : Point ℝ) : ℝ :=
  Real.sqrt ((p2.x - p1.x) ^ 2 + (p2.y - p1.y) ^ 2)

/-- Perimeter in pixels: `polygonPerimeterPx` (measure.js 23-31). `none` is a
missing list. -/
noncomputable def polygonPerimeterPx (points : Option (List (Point ℝ))) : ℝ :=
  match points with
  | none => 0
  | some pts =>
    if pts.length < 2 then 0
    else
      (List.range pts.length).foldl (fun peri i =>
        let j := (i + 1) % pts.length
        peri + distance (pointAt pts i) (pointAt pts j)) 0

/-- Edge lengths: `edgeLengthsPx` (measure.js 34-41). -/
noncomputable def edgeLengthsPx (points : List (Point ℝ)) : List ℝ :=
  (List.range points.length).map fun i =>
    let j := (i + 1) % points.length
    distance (pointAt points i) (pointAt points j)

/-- Closure check: `isClosed(points, tolerance = 10)` (measure.js 68-71). -/
noncomputable def isClosed (points : List (Point ℝ)) (tolerance : ℝ) : Bool :=
  if points.length < 3 then false
  else decide (distance (pointAt points 0) (pointAt points (points.length - 1)) < tolerance)

/-- Roof pitch: `calculateRoofPitch` (measure.js 122-127). -/
noncomputable def calculateRoofPitch (baseMeters heightMeters : ℝ) : Pitch :=
  let pitchRatio := heightMeters / baseMeters
  let pitchDegrees := Real.arctan pitchRatio * (180 / Real.pi)
  ⟨pitchRatio, pitchDegrees⟩

/-- Main measurement helper: `measureRoof(points, metersPerPx, opts = {})`
(measure.js 153-187). `isClosed` is called with its default tolerance 10. -/
noncomputable def measureRoof (points : Option (List (Point ℝ))) (metersPerPx : ℝ)
    (opts : Opts) : MeasurementResult :=
  match points with
  | none => MeasurementResult.failure "At least 3 points required."
  | some pts =>
    if pts.length < 3 then MeasurementResult.failure "At least 3 points required."
    else if !isClosed pts 10 then MeasurementResult.failure "Polygon not closed."
    else if isSelfIntersecting pts then MeasurementResult.failure "Polygon self-intersects."
    else
      let areaPx := polygonAreaPx (some pts)
      let perimeterPx := polygonPerimeterPx (some pts)
      let area : Area ℝ := convertUnits areaPx metersPerPx .area
      let perimeter : Length ℝ := convertUnits perimeterPx metersPerPx .length
      let bbox := getBoundingBox pts
      let centroid := polygonCentroid pts
      let edgesPx := edgeLengthsPx pts
      let edgesMeters := edgesPx.map fun e => e * metersPerPx
      let pitch :=
        match opts.baseMeters, opts.heightMeters with
        | some baseMeters, some heightMeters =>
          if baseMeters ≠ 0 ∧ heightMeters ≠ 0 then
            some (calculateRoofPitch baseMeters heightMeters)
          else none
        | _, _ => none
      let price :=
        if truthy opts.pricePerSqm || truthy opts.pricePerSqft then
          some (calculatePrice area opts.pricePerSqm opts.pricePerSqft)
        else none
      { areaPx := some areaPx
        perimeterPx := some perimeterPx
        area := some area
        perimeter := some perimeter
        bbox := bbox
        centroid := some centroid
        edgesPx := some edgesPx
        edgesMeters := some edgesMeters
        pitch := some pitch
        price := some price
        points := some pts
        error := none }

/-- CSV export: `exportToCSV` (measure.js 138-146). `str` is the conversion of a
number to text that the template literals perform. A result whose `error` is a
non-empty message is truthy there. `none` is the `TypeError` the function throws when
a key it reads (`points`, `area`, `perimeter`, `bbox`) is missing. -/
def exportToCSV (str : ℝ → String) (result : MeasurementResult) : Option String :=
  if (match result.error with
      | some msg => decide (msg ≠ "")
      | none => false) then some ""
  else
    match result.area, result.perimeter, result.bbox, result.points with
    | some area, some perimeter, some bbox, some points =>
      let csv := "x,y\n"
      let csv := points.foldl (fun csv p => csv ++ (str p.x ++ "," ++ str p.y ++ "\n")) csv
      let csv := csv ++ ("Area(m2)," ++ str area.sqm ++ "\nArea(ft2)," ++ str area.sqft
        ++ "\nPerimeter(m)," ++ str perimeter.meters
        ++ "\nPerimeter(ft)," ++ str perimeter.feet ++ "\n")
      let csv := csv ++ ("BBox(minX)," ++ str bbox.minX ++ "\nBBox(minY)," ++ str bbox.minY
        ++ "\nBBox(maxX)," ++ str bbox.maxX ++ "\nBBox(maxY)," ++ str bbox.maxY ++ "\n")
      some csv
    | _, _, _, _ => none

/-! ## The calibration handler (`MeasureScreen.js`) -/

/-- The part of the state of `MeasureScreen` that `calibrate` reads and writes.
`refRealMeters` is the text of the input field: `none` is the empty text, `some d` a
text that `parseFloat` reads as the number `d`. -/
structure ScreenState where
  points : List (Point ℝ)
  scaleMetersPerPx : Option ℝ
  refRealMeters : Option ℝ
  showCalibration : Bool

/-- The handler `calibrate` (MeasureScreen.js 42-58): the state after the call and
the text of the alert it shows. -/
noncomputable def calibrate (s : ScreenState) : ScreenState × String :=
  match s.refRealMeters with
  | none => (s, "Mark two points for reference and enter real length.")
  | some meters =>
    if s.points.length < 2 then
      (s, "Mark two points for reference and enter real length.")
    else
      let p1 := pointAt s.points 0
      let p2 := pointAt s.points 1
      let pixelDist := Real.sqrt ((p2.x - p1.x) ^ 2 + (p2.y - p1.y) ^ 2)
      if pixelDist = 0 then (s, "Points must not be identical.")
      else
        ({ s with scaleMetersPerPx := some (meters / pixelDist), showCalibration := false },
          "Calibration set successfully!")

/-! ## Pricing (`utils/price.js`) -/

section Pricing

variable {α : Type} [LinearOrderedField α]

/-- The numbers of the table `currencyRates` (price.js 15-21). `none`: the lookup
`currencyRates[code]` finds no number, because `code` is no key of the table (the
lookup is `undefined`, or a member inherited from `Object.prototype`, see
`inheritedNames`). -/
def currencyRates (α : Type) [LinearOrderedField α] (code : String) : Option α :=
  if code = "USD" then some 1
  else if code = "EUR" then some 0.93
  else if code = "GBP" then some 0.79
  else if code = "AUD" then some 1.5
  else if code = "CAD" then some 1.34
  else none

/-- Currency conversion: `convertCurrency(amount, from, to)` (price.js 23-27). `none`
is `NaN`, the result of the arithmetic when a lookup in the table finds no number. -/
def convertCurrency (amount : α) (fromCode toCode : String) : Option α :=
  if fromCode = toCode then some amount
  else
    match currencyRates α fromCode, currencyRates α toCode with
    | some rateFrom, some rateTo =>
      let usdAmount := amount / rateFrom
      some (usdAmount * rateTo)
    | _, _ => none

/-- One entry `{ min, value }` of the `tiers` of a tiered discount. -/
structure Tier (α : Type) where
  min : α
  value : α

/-- A discount object, by its `type`: `'fixed'` and `'percent'` carry a `value`,
`'tiered'` carries `tiers`; `other` is an object with any other `type`. -/
inductive Discount (α : Type) where
  | fixed (value : α)
  | percent (value : α)
  | tiered (tiers : List (Tier α))
  | other

/-- A tax rate object `{ value, label }`; the label plays no part. -/
structure TaxRate (α : Type) where
  value : α

/-- An add-on object `{ name, price, quantity }`; `none` is a key that is not given. -/
structure AddOn (α : Type) where
  price : Option α
  quantity : Option α

/-- The expression `v || d` on an optional number: `v` when it is given and not
zero, else `d`. -/
def orDefault (v : Option α) (d : α) : α :=
  match v with
  | some x => if x ≠ 0 then x else d
  | none => d

/-- Discount calculation: `calculateDiscounts(base, discounts)` (price.js 30-45). -/
def calculateDiscounts (base : α) (discounts : List (Discount α)) : α :=
  discounts.foldl (fun discountTotal discount =>
    match discount with
    | .fixed value => discountTotal + value
    | .percent value => discountTotal + base * (value / 100)
    | .tiered tiers =>
      tiers.foldl (fun discountTotal t =>
        if base ≥ t.min then discountTotal + base * (t.value / 100) else discountTotal)
        discountTotal
    | .other => discountTotal) 0

/-- Tax calculation: `calculateTaxes(subtotal, taxRates)` (price.js 48-54). -/
def calculateTaxes (subtotal : α) (taxRates : List (TaxRate α)) : α :=
  taxRates.foldl (fun taxTotal rate => taxTotal + subtotal * (rate.value / 100)) 0

/-- Add-ons: `calculateAddOns(addOns)` (price.js 57-64). -/
def calculateAddOns (addOns : List (AddOn α)) : α :=
  addOns.foldl (fun addOnTotal addOn =>
    addOnTotal + orDefault addOn.price 0 * orDefault addOn.quantity 1) 0

/-- The argument object of `calculatePriceDetails`, with the defaults of its
parameter list. -/
structure PriceInput (α : Type) where
  area : Area α
  basePrice : α
  discounts : List (Discount α) := []
  taxRates : List (TaxRate α) := []
  addOns : List (AddOn α) := []
  currency : String := "USD"
  unit : String := "sqm"

/-- The `breakdown` object of a quote. -/
structure Breakdown (α : Type) where
  area : α
  basePrice : α
  addOns : List (AddOn α)
  discounts : List (Discount α)
  taxRates : List (TaxRate α)

/-- The object returned by `calculatePriceDetails`; a figure that is `none` is `NaN`. -/
structure PriceDetails (α : Type) where
  base : Option α
  addOnTotal : Option α
  discountTotal : Option α
  taxTotal : Option α
  total : Option α
  currency : String
  unit : String
  breakdown : Breakdown α

/-- Price calculation for a quote: `calculatePriceDetails` (price.js 85-128). -/
def calculatePriceDetails (input : PriceInput α) : PriceDetails α :=
  let areaValue := if input.unit = "sqm" then input.area.sqm else input.area.sqft
  let base := areaValue * input.basePrice
  let addOnTotal := calculateAddOns input.addOns
  let subtotal := base + addOnTotal
  let discountTotal := calculateDiscounts subtotal input.discounts
  let subtotalAfterDiscount := subtotal - discountTotal
  let taxTotal := calculateTaxes subtotalAfterDiscount input.taxRates
  let total := subtotalAfterDiscount + taxTotal
  { base := convertCurrency base "USD" input.currency
    addOnTotal := convertCurrency addOnTotal "USD" input.currency
    discountTotal := convertCurrency discountTotal "USD" input.currency
    taxTotal := convertCurrency taxTotal "USD" input.currency
    total := convertCurrency total "USD" input.currency
    currency := input.currency
    unit := input.unit
    breakdown :=
      { area := areaValue
        basePrice := input.basePrice
        addOns := input.addOns
        discounts := input.discounts
        taxRates := input.taxRates } }

/-- The call `v.toFixed(2)` on a figure of a quote: `toFixed` is the rendering of a
number with two decimals, and `NaN` renders as the text `NaN`. -/
def figureToFixed (toFixed : α → String) (v : Option α) : String :=
  match v with
  | some x => toFixed x
  | none => "NaN"

/-- The test `v > 0` on a figure of a quote; it is false for `NaN`. -/
def figurePositive (v : Option α) : Bool :=
  match v with
  | some x => decide (x > 0)
  | none => false

/-- Quote text: `formatQuoteDetails` (price.js 131-140). `none` is a missing
`details` argument. -/
def formatQuoteDetails (toFixed : α → String) (details : Option (PriceDetails α)) : String :=
  match details with
  | none => "No quote details."
  | some details =>
    "Base: " ++ details.currency ++ " $" ++ figureToFixed toFixed details.base ++ "\n"
      ++ (if figurePositive details.addOnTotal then
            "Add-ons: $" ++ figureToFixed toFixed details.addOnTotal ++ "\n"
          else "")
      ++ (if figurePositive details.discountTotal then
            "Discounts: -$" ++ figureToFixed toFixed details.discountTotal ++ "\n"
          else "")
      ++ (if figurePositive details.taxTotal then
            "Tax: +$" ++ figureToFixed toFixed details.taxTotal ++ "\n"
          else "")
      ++ "Total: $" ++ figureToFixed toFixed details.total

/-- The argument object `{ area, basePrice, currency }` of `validateQuoteInput`;
`none` is a key that is not given. -/
structure QuoteInput (α : Type) where
  area : Option (Area α)
  basePrice : Option α
  currency : Option String

/-- The property names every object inherits from `Object.prototype` (ECMAScript,
Annex B included). A lookup `currencyRates[name]` with one of them finds a function,
or for `__proto__` the prototype object. -/
def inheritedNames : List String :=
  ["constructor", "hasOwnProperty", "isPrototypeOf", "propertyIsEnumerable",
    "toLocaleString", "toString", "valueOf", "__proto__", "__defineGetter__",
    "__defineSetter__", "__lookupGetter__", "__lookupSetter__"]

/-- The test `!currencyRates[currency]`. Under a key of the table the lookup finds a
number, falsy when it is 0; under an inherited name it finds a function or an object,
which is truthy; under any other name, and for a currency that is not given, it is
`undefined`. -/
def rateLookupFalsy (α : Type) [LinearOrderedField α] (currency : Option String) : Bool :=
  match currency with
  | none => true
  | some code =>
    match currencyRates α code with
    | some rate => decide (rate = 0)
    | none => !(inheritedNames.contains code)

/-- Validation of a quote: `validateQuoteInput` (price.js 143-148). The result `none`
is `null`. -/
def validateQuoteInput (input : QuoteInput α) : Option String :=
  if (match input.area with
      | none => true
      | some area => decide (area.sqm ≤ 0)) then
    some "Area must be greater than zero."
  else if (match input.basePrice with
      | none => true
      | some basePrice => decide (basePrice = 0 ∨ basePrice ≤ 0)) then
    some "Base price must be positive."
  else if rateLookupFalsy α input.currency then
    some "Unsupported currency."
  else none

end Pricing

/-! ## Notions used to state the properties -/

section Notions

variable {α : Type} [LinearOrderedField α]

/-- Edge number `i` of a polygon: from `points[i]` to `points[(i + 1) % n]`. -/
def edge (points : List (Point α)) (i : Nat) : Point α × Point α :=
  (pointAt points i, pointAt points ((i + 1) % points.length))

/-- Two edges share a vertex: an endpoint of one has the coordinates of an endpoint
of the other. -/
def shareVertex (e f : Point α × Point α) : Prop :=
  e.1 = f.1 ∨ e.1 = f.2 ∨ e.2 = f.1 ∨ e.2 = f.2

/-- Twice the signed area of the triangle `p q r`: its sign tells on which side of
the line through `p` and `q` the point `r` lies. -/
def orient (p q r : Point α) : α :=
  (q.x - p.x) * (r.y - p.y) - (q.y - p.y) * (r.x - p.x)

/-- The points `a` and `b` lie strictly on opposite sides of the line through `p`
and `q`. -/
def oppositeSides (p q a b : Point α) : Prop :=
  (0 < orient p q a ∧ orient p q b < 0) ∨ (orient p q a < 0 ∧ 0 < orient p q b)

/-- The segments `a b` and `c d` properly cross: the quadrilateral `a b c d` is a
bowtie. -/
def properlyCross (a b c d : Point α) : Prop :=
  oppositeSides c d a b ∧ oppositeSides a b c d

/-- The quadrilateral with the vertices `a b c d` in boundary order turns the same
way, strictly, at each of its four corners. -/
def strictlyConvexQuad (a b c d : Point α) : Prop :=
  (0 < orient a b c ∧ 0 < orient b c d ∧ 0 < orient c d a ∧ 0 < orient d a b)
    ∨ (orient a b c < 0 ∧ orient b c d < 0 ∧ orient c d a < 0 ∧ orient d a b < 0)

/-- The four corners of the axis-aligned rectangle with corner `(x0, y0)`, width `w`
and height `h`, in boundary order. -/
def rectangle (x0 y0 w h : α) : List (Point α) :=
  [⟨x0, y0⟩, ⟨x0 + w, y0⟩, ⟨x0 + w, y0 + h⟩, ⟨x0, y0 + h⟩]

end Notions

section PricingNotions

variable {α : Type} [LinearOrderedField α]

/-- What one discount takes off a base amount, in the words of the specification: a
fixed discount its value, a percent discount `base * value / 100`, a tiered discount
`base * value / 100` for every tier whose `min` is at most the base. -/
def discountAmount (base : α) : Discount α → α
  | .fixed value => value
  | .percent value => base * value / 100
  | .tiered tiers =>
    ((tiers.filter fun t => decide (t.min ≤ base)).map fun t => base * t.value / 100).sum
  | .other => 0

/-- What one add-on costs, in the words of the specification: price times quantity,
the quantity counting as 1 only when it is not given. -/
def addOnAmount (addOn : AddOn α) : α :=
  addOn.price.getD 0 * addOn.quantity.getD 1

/-- The area of a quote input is given and positive. -/
def areaPositive (input : QuoteInput α) : Prop :=
  ∃ area, input.area = some area ∧ 0 < area.sqm

/-- The base price of a quote input is given and positive. -/
def basePricePositive (input : QuoteInput α) : Prop :=
  ∃ basePrice, input.basePrice = some basePrice ∧ 0 < basePrice

/-- The currency code of a quote input is given and is a key of the rate table. -/
def currencySupported (input : QuoteInput α) : Prop :=
  ∃ code rate, input.currency = some code ∧ currencyRates α code = some rate

end PricingNotions

/-- A quote input in euros: 100 square metres at 10 per square metre, a 10 percent and
a fixed discount, two tax rates, no add-ons. -/
def euroQuote : PriceInput ℚ :=
  ⟨⟨100, 1076⟩, 10, [.percent 10, .fixed 50], [⟨7.5⟩, ⟨2⟩], [], "EUR", "sqm"⟩


/-! ### Texts and translations -/

/-- The text made of the given rows, each one followed by a newline. -/
def unlines (rows : List String) : String :=
  rows.foldr (fun row rest => row ++ "\n" ++ rest) ""

/-- The rows of the CSV export, in the words of the specification: the header, one
`x,y` row per point in the order of the list, then the eight key,value rows. -/
def csvRows (str : ℝ → String) (area : Area ℝ) (perimeter : Length ℝ) (bbox : BBox ℝ)
    (points : List (Point ℝ)) : List String :=
  ["x,y"] ++ (points.map fun p => str p.x ++ "," ++ str p.y)
    ++ ["Area(m2)," ++ str area.sqm, "Area(ft2)," ++ str area.sqft,
        "Perimeter(m)," ++ str perimeter.meters, "Perimeter(ft)," ++ str perimeter.feet,
        "BBox(minX)," ++ str bbox.minX, "BBox(minY)," ++ str bbox.minY,
        "BBox(maxX)," ++ str bbox.maxX, "BBox(maxY)," ++ str bbox.maxY]

/-- The lines of the quote text, in the words of the specification: the Base line,
then the Add-ons, Discounts and Tax lines for the totals that are positive, then the
Total line. -/
def quoteLines {α : Type} [LinearOrderedField α] (toFixed : α → String)
    (details : PriceDetails α) : List String :=
  ["Base: " ++ details.currency ++ " $" ++ figureToFixed toFixed details.base ++ "\n"]
    ++ (if figurePositive details.addOnTotal then
          ["Add-ons: $" ++ figureToFixed toFixed details.addOnTotal ++ "\n"] else [])
    ++ (if figurePositive details.discountTotal then
          ["Discounts: -$" ++ figureToFixed toFixed details.discountTotal ++ "\n"] else [])
    ++ (if figurePositive details.taxTotal then
          ["Tax: +$" ++ figureToFixed toFixed details.taxTotal ++ "\n"] else [])
    ++ ["Total: $" ++ figureToFixed toFixed details.total]

/-- The polygon moved by the offset `(dx, dy)`. -/
def translate {α : Type} [LinearOrderedField α] (dx dy : α) (points : List (Point α)) :
    List (Point α) :=
  points.map fun p => ⟨p.x + dx, p.y + dy⟩

/-- A quote input that validation accepts and whose discount exceeds the subtotal:
1 square metre at 10 per square metre, one fixed discount of 50, no taxes, US dollars. -/
def overDiscounted : PriceInput ℚ :=
  ⟨⟨1, 10.7639⟩, 10, [.fixed 50], [], [], "USD", "sqm"⟩

/-- The closed 10 x 10 square of the end-to-end example, first point repeated. -/
def closedSquare : List (Point ℝ) := [⟨0, 0⟩, ⟨10, 0⟩, ⟨10, 10⟩, ⟨0, 10⟩, ⟨0, 0⟩]

/-- A triangle whose last point lies 3 pixels from the first. -/
def openTriangle : List (Point ℝ) := [⟨0, 0⟩, ⟨4, 0⟩, ⟨0, 3⟩]

/-- The error shape of a result: a non-empty message and no other key. -/
def MeasurementResult.isFailureShape (r : MeasurementResult) : Prop :=
  (∃ msg, r.error = some msg ∧ msg ≠ "")
    ∧ r.areaPx = none ∧ r.perimeterPx = none ∧ r.area = none ∧ r.perimeter = none
    ∧ r.bbox = none ∧ r.centroid = none ∧ r.edgesPx = none ∧ r.edgesMeters = none
    ∧ r.pitch = none ∧ r.price = none ∧ r.points = none

/-- The success shape of a result: `error` is `null` and the measurement keys are
all present. -/
def MeasurementResult.isSuccessShape (r : MeasurementResult) : Prop :=
  r.error = none
    ∧ r.areaPx.isSome ∧ r.perimeterPx.isSome ∧ r.area.isSome ∧ r.perimeter.isSome
    ∧ r.bbox.isSome ∧ r.centroid.isSome ∧ r.edgesPx.isSome ∧ r.edgesMeters.isSome
    ∧ r.points.isSome

/-! ## Auxiliary facts -/

theorem sqrt_hundred : Real.sqrt 100 = 10 := by
  rw [show (100 : ℝ) = 10 ^ 2 by norm_num]
  exact Real.sqrt_sq (by norm_num)

theorem distance_nonneg (p q : Point ℝ) : 0 ≤ distance p q :=
  Real.sqrt_nonneg _

/-! ## The end-to-end example -/

/-- C1: on the closed 10 x 10 square (0,0),(10,0),(10,10),(0,10),(0,0) with scale 1
and no options `measureRoof` does not succeed: the square passes the closure check,
its shoelace area is 100 and its perimeter 40, but `isSelfIntersecting` reports a
crossing and the result is the error 'Polygon self-intersects.'. -/
theorem measureRoof_closedSquare :
    isClosed closedSquare 10 = true
      ∧ polygonAreaPx (some closedSquare) = 100
      ∧ polygonPerimeterPx (some closedSquare) = 40
      ∧ measureRoof (some closedSquare) 1 Opts.empty
          = MeasurementResult.failure "Polygon self-intersects." := by
  have h1 : isClosed closedSquare 10 = true := by
    simp [isClosed, closedSquare, pointAt, distance]
  have h2 : isSelfIntersecting closedSquare = true := by
    simp [isSelfIntersecting, closedSquare, List.range_succ, List.range', pointAt,
      linesIntersect, ccw]
  have h3 : ¬ closedSquare.length < 3 := by simp [closedSquare]
  refine ⟨h1, ?_, ?_, ?_⟩
  · simp [polygonAreaPx, closedSquare, List.range_succ, pointAt]
    norm_num
  · simp [polygonPerimeterPx, closedSquare, List.range_succ, pointAt, distance,
      sqrt_hundred]
    norm_num
  · simp only [measureRoof, h1, h2, h3]
    simp

/-! ## Validation -/

/-- C2: for a missing list and for every list with fewer than 3 points, whatever the
scale and the options, `measureRoof` returns the error 'At least 3 points required.'
and none of the other keys. -/
theorem measureRoof_insufficient (points : Option (List (Point ℝ))) (metersPerPx : ℝ)
    (opts : Opts) (h : ∀ pts, points = some pts → pts.length < 3) :
    let r := measureRoof points metersPerPx opts
    r.error = some "At least 3 points required."
      ∧ r.areaPx = none ∧ r.perimeterPx = none ∧ r.area = none ∧ r.perimeter = none
      ∧ r.bbox = none ∧ r.centroid = none ∧ r.edgesPx = none ∧ r.edgesMeters = none
      ∧ r.pitch = none ∧ r.price = none ∧ r.points = none := by
  cases points with
  | none => simp [measureRoof, MeasurementResult.failure]
  | some pts =>
    have hlen : pts.length < 3 := h pts rfl
    simp [measureRoof, hlen, MeasurementResult.failure]

theorem measureRoof_insufficient_witness :
    (∀ pts, some ([⟨0, 0⟩, ⟨1, 1⟩] : List (Point ℝ)) = some pts → pts.length < 3)
      ∧ (measureRoof (some [⟨0, 0⟩, ⟨1, 1⟩]) 1 Opts.empty).error
          = some "At least 3 points required."
      ∧ (measureRoof none 1 Opts.empty).error = some "At least 3 points required." :=
  have h : ∀ pts, some ([⟨0, 0⟩, ⟨1, 1⟩] : List (Point ℝ)) = some pts → pts.length < 3 := by
    intro pts hp
    cases hp
    decide
  ⟨h, (measureRoof_insufficient (some [⟨0, 0⟩, ⟨1, 1⟩]) 1 Opts.empty h).1,
    (measureRoof_insufficient none 1 Opts.empty (fun _ hp => nomatch hp)).1⟩

/-- C3, as stated, fails at the boundary: for the three points (0,0),(5,5),(10,0) the
first and the last point are exactly 10 apart, the distance does not exceed 10, yet
`measureRoof` returns 'Polygon not closed.'. -/
theorem measureRoof_notClosed_at_tolerance :
    ¬ (distance ⟨0, 0⟩ ⟨10, 0⟩ > 10)
      ∧ measureRoof (some [⟨0, 0⟩, ⟨5, 5⟩, ⟨10, 0⟩]) 1 Opts.empty
          = MeasurementResult.failure "Polygon not closed." := by
  have hd : distance ⟨0, 0⟩ ⟨10, 0⟩ = 10 := by
    simp [distance, sqrt_hundred]
  refine ⟨by rw [hd]; norm_num, ?_⟩
  have hc : isClosed [⟨0, 0⟩, ⟨5, 5⟩, ⟨10, 0⟩] 10 = false := by
    simp [isClosed, pointAt, distance, sqrt_hundred]
  simp [measureRoof, hc]

/-- C3, amended: for every list with at least 3 points, `measureRoof` returns the
error 'Polygon not closed.' exactly when the distance between the first and the last
point is at least 10 (a distance of exactly 10 is rejected), and it does so whether or
not the polygon self-intersects. -/
theorem measureRoof_notClosed_iff (pts : List (Point ℝ)) (metersPerPx : ℝ) (opts : Opts)
    (h : 3 ≤ pts.length) :
    (measureRoof (some pts) metersPerPx opts = MeasurementResult.failure "Polygon not closed."
        ↔ 10 ≤ distance (pointAt pts 0) (pointAt pts (pts.length - 1)))
      ∧ (10 ≤ distance (pointAt pts 0) (pointAt pts (pts.length - 1)) →
          isSelfIntersecting pts = true →
          (measureRoof (some pts) metersPerPx opts).error = some "Polygon not closed.") := by
  have hlen : ¬ pts.length < 3 := by omega
  have key : measureRoof (some pts) metersPerPx opts
      = MeasurementResult.failure "Polygon not closed."
        ↔ 10 ≤ distance (pointAt pts 0) (pointAt pts (pts.length - 1)) := by
    constructor
    · intro hm
      by_contra hd
      have hc : isClosed pts 10 = true := by
        simp only [isClosed, hlen, if_false, decide_eq_true_eq]
        exact lt_of_not_le hd
      have herr := congrArg MeasurementResult.error hm
      by_cases hs : isSelfIntersecting pts = true
      · simp [measureRoof, hlen, hc, hs, MeasurementResult.failure] at herr
      · simp [measureRoof, hlen, hc, hs, MeasurementResult.failure] at herr
    · intro hd
      have hc : isClosed pts 10 = false := by
        simp only [isClosed, hlen, if_false, decide_eq_false_iff_not]
        exact not_lt.mpr hd
      simp [measureRoof, hlen, hc]
  refine ⟨key, fun hd _ => ?_⟩
  rw [key.mpr hd]
  rfl

theorem measureRoof_notClosed_iff_witness :
    10 ≤ distance (pointAt ([⟨0, 0⟩, ⟨20, 20⟩, ⟨20, 0⟩, ⟨0, 20⟩] : List (Point ℝ)) 0)
        (pointAt [⟨0, 0⟩, ⟨20, 20⟩, ⟨20, 0⟩, ⟨0, 20⟩] 3)
      ∧ isSelfIntersecting ([⟨0, 0⟩, ⟨20, 20⟩, ⟨20, 0⟩, ⟨0, 20⟩] : List (Point ℝ)) = true
      ∧ (measureRoof (some [⟨0, 0⟩, ⟨20, 20⟩, ⟨20, 0⟩, ⟨0, 20⟩]) 1 Opts.empty).error
          = some "Polygon not closed." := by
  have hd : 10 ≤ distance (pointAt ([⟨0, 0⟩, ⟨20, 20⟩, ⟨20, 0⟩, ⟨0, 20⟩] : List (Point ℝ)) 0)
      (pointAt [⟨0, 0⟩, ⟨20, 20⟩, ⟨20, 0⟩, ⟨0, 20⟩] 3) := by
    have : distance (pointAt ([⟨0, 0⟩, ⟨20, 20⟩, ⟨20, 0⟩, ⟨0, 20⟩] : List (Point ℝ)) 0)
        (pointAt [⟨0, 0⟩, ⟨20, 20⟩, ⟨20, 0⟩, ⟨0, 20⟩] 3) = 20 := by
      simp [distance, pointAt]
    rw [this]
    norm_num
  have hs : isSelfIntersecting ([⟨0, 0⟩, ⟨20, 20⟩, ⟨20, 0⟩, ⟨0, 20⟩] : List (Point ℝ)) = true := by
    simp [isSelfIntersecting, List.range_succ, List.range', pointAt, linesIntersect, ccw]
  exact ⟨hd, hs,
    (measureRoof_notClosed_iff [⟨0, 0⟩, ⟨20, 20⟩, ⟨20, 0⟩, ⟨0, 20⟩] 1 Opts.empty
      (by decide)).2 hd hs⟩

/-! ## Self-intersection -/

section SelfIntersection

variable {α : Type} [LinearOrderedField α]

theorem ccw_iff (p1 p2 p3 : Point α) : ccw p1 p2 p3 = true ↔ 0 < orient p1 p2 p3 := by
  simp only [ccw, orient, decide_eq_true_eq, gt_iff_lt]
  constructor <;> intro h <;> linarith

theorem ccw_eq_false_iff (p1 p2 p3 : Point α) :
    ccw p1 p2 p3 = false ↔ orient p1 p2 p3 ≤ 0 := by
  rw [← not_lt, ← ccw_iff]
  simp

theorem orient_rotate (p q r : Point α) : orient q r p = orient p q r := by
  simp only [orient]
  ring

/-- On four points the loops test exactly two pairs of edges: edge 0 against edge 2
and edge 1 against edge 3. -/
theorem isSelfIntersecting_four (a b c d : Point α) :
    isSelfIntersecting [a, b, c, d] = (linesIntersect a b c d || linesIntersect b c d a) := by
  simp [isSelfIntersecting, List.range_succ, List.range', pointAt]

end SelfIntersection

/-- C4, as stated, fails on the closed square (0,0),(10,0),(10,10),(0,10),(0,0):
every pair of edges that do not share a vertex passes the orientation test as
non-crossing, edge 0 and edge 3 share the vertex (0,0) without being neighbours in
the list, `linesIntersect` holds for that pair and `isSelfIntersecting` returns
`true`. -/
theorem isSelfIntersecting_closedSquare :
    (∀ i j, i < closedSquare.length → j < closedSquare.length →
        ¬ shareVertex (edge closedSquare i) (edge closedSquare j) →
        linesIntersect (edge closedSquare i).1 (edge closedSquare i).2
          (edge closedSquare j).1 (edge closedSquare j).2 = false)
      ∧ shareVertex (edge closedSquare 0) (edge closedSquare 3)
      ∧ linesIntersect (edge closedSquare 0).1 (edge closedSquare 0).2
          (edge closedSquare 3).1 (edge closedSquare 3).2 = true
      ∧ isSelfIntersecting closedSquare = true := by
  refine ⟨?_, ?_, ?_, ?_⟩
  · intro i j hi hj
    have hi5 : i < 5 := hi
    have hj5 : j < 5 := hj
    interval_cases i <;> interval_cases j <;>
      simp [shareVertex, edge, closedSquare, pointAt, linesIntersect, ccw]
  · simp [shareVertex, edge, closedSquare, pointAt]
  · simp [edge, closedSquare, pointAt, linesIntersect, ccw]
  · simp [isSelfIntersecting, closedSquare, List.range_succ, List.range', pointAt,
      linesIntersect, ccw]

/-- C4, amended: `isSelfIntersecting` never reports a crossing on account of two
edges that are neighbours in the list (indices that differ by at most 1) or of the
wrap-around pair (edge 0 and edge `n - 1`): if every other pair of edges passes the
orientation test as non-crossing, `isSelfIntersecting` returns `false`. -/
theorem isSelfIntersecting_skips_neighbours {α : Type} [LinearOrderedField α]
    (points : List (Point α))
    (h : ∀ i j, i + 1 < j → j < points.length → ¬ (i = 0 ∧ j = points.length - 1) →
      linesIntersect (edge points i).1 (edge points i).2
        (edge points j).1 (edge points j).2 = false) :
    isSelfIntersecting points = false := by
  simp only [isSelfIntersecting, List.any_eq_false, List.mem_range, List.mem_range'_1,
    Bool.not_eq_true]
  intro i hi j hj
  by_cases hn : Int.natAbs ((i : ℤ) - (j : ℤ)) ≤ 1 ∨ (i = 0 ∧ j = points.length - 1)
  · simp [hn]
  · have hij := h i j (by omega) (by omega) (by omega)
    simp only [edge] at hij
    simpa [hn] using hij

theorem isSelfIntersecting_skips_neighbours_witness :
    isSelfIntersecting (rectangle (0 : ℚ) 0 10 10) = false :=
  isSelfIntersecting_skips_neighbours (rectangle (0 : ℚ) 0 10 10) (by
    intro i j hij hj hw
    have hj4 : j < 4 := hj
    have hi4 : i < 4 := by omega
    interval_cases j <;> interval_cases i <;>
      simp_all [rectangle, edge, pointAt, linesIntersect, ccw])

/-- C5: for every four-point list `a b c d`, if the segments `a b` and `c d` properly
cross (a bowtie) `isSelfIntersecting` returns `true`, and if `a b c d` are the
vertices of a strictly convex quadrilateral in boundary order, in either winding, it
returns `false`. -/
theorem isSelfIntersecting_quadrilateral {α : Type} [LinearOrderedField α]
    (a b c d : Point α) :
    (properlyCross a b c d → isSelfIntersecting [a, b, c, d] = true)
      ∧ (strictlyConvexQuad a b c d → isSelfIntersecting [a, b, c, d] = false) := by
  rw [isSelfIntersecting_four]
  have e1 : orient a c d = orient c d a := (orient_rotate a c d).symm
  have e2 : orient b c d = orient c d b := (orient_rotate b c d).symm
  have e3 : orient a b d = orient d a b := orient_rotate d a b
  have e4 : orient b c a = orient a b c := orient_rotate a b c
  constructor
  · rintro ⟨h1, h2⟩
    have k1 : (ccw a c d != ccw b c d) = true := by
      rcases h1 with ⟨p, q⟩ | ⟨p, q⟩
      · have := (ccw_iff a c d).mpr (e1 ▸ p)
        have := (ccw_eq_false_iff b c d).mpr (e2 ▸ q.le)
        simp [*]
      · have := (ccw_eq_false_iff a c d).mpr (e1 ▸ p.le)
        have := (ccw_iff b c d).mpr (e2 ▸ q)
        simp [*]
    have k2 : (ccw a b c != ccw a b d) = true := by
      rcases h2 with ⟨p, q⟩ | ⟨p, q⟩
      · have := (ccw_iff a b c).mpr p
        have := (ccw_eq_false_iff a b d).mpr q.le
        simp [*]
      · have := (ccw_eq_false_iff a b c).mpr p.le
        have := (ccw_iff a b d).mpr q
        simp [*]
    simp [linesIntersect, k1, k2]
  · intro h
    have k1 : ccw a b c = ccw a b d := by
      rcases h with ⟨p, _, _, q⟩ | ⟨p, _, _, q⟩
      · rw [(ccw_iff a b c).mpr p, (ccw_iff a b d).mpr (e3 ▸ q)]
      · rw [(ccw_eq_false_iff a b c).mpr p.le, (ccw_eq_false_iff a b d).mpr (e3 ▸ q.le)]
    have k2 : ccw b c d = ccw b c a := by
      rcases h with ⟨p, q, _, _⟩ | ⟨p, q, _, _⟩
      · rw [(ccw_iff b c d).mpr q, (ccw_iff b c a).mpr (e4 ▸ p)]
      · rw [(ccw_eq_false_iff b c d).mpr q.le, (ccw_eq_false_iff b c a).mpr (e4 ▸ p.le)]
    simp [linesIntersect, k1, k2]

theorem isSelfIntersecting_quadrilateral_witness :
    properlyCross (⟨0, 0⟩ : Point ℚ) ⟨10, 10⟩ ⟨10, 0⟩ ⟨0, 10⟩
      ∧ isSelfIntersecting ([⟨0, 0⟩, ⟨10, 10⟩, ⟨10, 0⟩, ⟨0, 10⟩] : List (Point ℚ)) = true
      ∧ strictlyConvexQuad (⟨0, 0⟩ : Point ℚ) ⟨10, 0⟩ ⟨10, 10⟩ ⟨0, 10⟩
      ∧ isSelfIntersecting ([⟨0, 0⟩, ⟨10, 0⟩, ⟨10, 10⟩, ⟨0, 10⟩] : List (Point ℚ)) = false := by
  have hb : properlyCross (⟨0, 0⟩ : Point ℚ) ⟨10, 10⟩ ⟨10, 0⟩ ⟨0, 10⟩ := by
    simp [properlyCross, oppositeSides, orient]
  have hc : strictlyConvexQuad (⟨0, 0⟩ : Point ℚ) ⟨10, 0⟩ ⟨10, 10⟩ ⟨0, 10⟩ := by
    simp [strictlyConvexQuad, orient]
  exact ⟨hb, (isSelfIntersecting_quadrilateral _ _ _ _).1 hb,
    hc, (isSelfIntersecting_quadrilateral _ _ _ _).2 hc⟩

/-! ## Area and perimeter of rectangles -/

theorem polygonAreaPx_four {α : Type} [LinearOrderedField α] (a b c d : Point α) :
    polygonAreaPx (some [a, b, c, d])
      = |a.x * b.y - b.x * a.y + b.x * c.y - c.x * b.y + c.x * d.y - d.x * c.y
          + d.x * a.y - a.x * d.y| / 2 := by
  simp [polygonAreaPx, List.range_succ, pointAt]

theorem polygonPerimeterPx_four (a b c d : Point ℝ) :
    polygonPerimeterPx (some [a, b, c, d])
      = distance a b + distance b c + distance c d + distance d a := by
  simp [polygonPerimeterPx, List.range_succ, pointAt]

theorem distance_horizontal (x y s : ℝ) (hs : 0 ≤ s) :
    distance ⟨x, y⟩ ⟨x + s, y⟩ = s ∧ distance ⟨x + s, y⟩ ⟨x, y⟩ = s := by
  simp [distance, Real.sqrt_sq_eq_abs, abs_of_nonneg hs]

theorem distance_vertical (x y s : ℝ) (hs : 0 ≤ s) :
    distance ⟨x, y⟩ ⟨x, y + s⟩ = s ∧ distance ⟨x, y + s⟩ ⟨x, y⟩ = s := by
  simp [distance, Real.sqrt_sq_eq_abs, abs_of_nonneg hs]

/-- C6: for every axis-aligned rectangle with corner `(x0, y0)` and sides `w, h ≥ 0`,
listed as its four corners in boundary order from any corner and in either winding,
`polygonAreaPx` returns `w * h`. -/
theorem polygonAreaPx_rectangle {α : Type} [LinearOrderedField α] (x0 y0 w h : α)
    (hw : 0 ≤ w) (hh : 0 ≤ h) (k : Nat) :
    polygonAreaPx (some ((rectangle x0 y0 w h).rotate k)) = w * h
      ∧ polygonAreaPx (some ((rectangle x0 y0 w h).reverse.rotate k)) = w * h := by
  have hwh : 0 ≤ w * h * 2 := by
    have := mul_nonneg hw hh
    linarith
  have hk : k % 4 < 4 := Nat.mod_lt _ (by norm_num)
  have h1 : (rectangle x0 y0 w h).rotate k = (rectangle x0 y0 w h).rotate (k % 4) :=
    (List.rotate_mod _ _).symm
  have h2 : (rectangle x0 y0 w h).reverse.rotate k
      = (rectangle x0 y0 w h).reverse.rotate (k % 4) := (List.rotate_mod _ _).symm
  rw [h1, h2]
  constructor
  · interval_cases (k % 4) <;>
      simp [rectangle, List.rotate, polygonAreaPx_four, div_eq_iff, abs_eq hwh] <;>
      left <;> ring1
  · interval_cases (k % 4) <;>
      simp [rectangle, List.rotate, polygonAreaPx_four, div_eq_iff, abs_eq hwh] <;>
      right <;> ring1

theorem polygonAreaPx_rectangle_witness :
    (0 : ℚ) ≤ 100
      ∧ polygonAreaPx (some ((rectangle (0 : ℚ) 0 100 100).rotate 0)) = 100 * 100
      ∧ polygonAreaPx (some ((rectangle (0 : ℚ) 0 100 100).reverse.rotate 0)) = 100 * 100 :=
  ⟨by norm_num, polygonAreaPx_rectangle 0 0 100 100 (by norm_num) (by norm_num) 0⟩

/-- C7: for every `s ≥ 0` and every corner `(x0, y0)`, `polygonPerimeterPx` of the
square of side `s`, listed as its four corners in boundary order from any corner and
in either winding, returns `4 * s`: the edge from the last point back to the first
is counted. -/
theorem polygonPerimeterPx_square (x0 y0 s : ℝ) (hs : 0 ≤ s) (k : Nat) :
    polygonPerimeterPx (some ((rectangle x0 y0 s s).rotate k)) = 4 * s
      ∧ polygonPerimeterPx (some ((rectangle x0 y0 s s).reverse.rotate k)) = 4 * s := by
  have hk : k % 4 < 4 := Nat.mod_lt _ (by norm_num)
  have h1 : (rectangle x0 y0 s s).rotate k = (rectangle x0 y0 s s).rotate (k % 4) :=
    (List.rotate_mod _ _).symm
  have h2 : (rectangle x0 y0 s s).reverse.rotate k
      = (rectangle x0 y0 s s).reverse.rotate (k % 4) := (List.rotate_mod _ _).symm
  have a1 := distance_horizontal x0 y0 s hs
  have a2 := distance_horizontal x0 (y0 + s) s hs
  have a3 := distance_vertical x0 y0 s hs
  have a4 := distance_vertical (x0 + s) y0 s hs
  rw [h1, h2]
  constructor
  · interval_cases (k % 4) <;>
      simp [rectangle, List.rotate, polygonPerimeterPx_four, a1, a2, a3, a4] <;> ring
  · interval_cases (k % 4) <;>
      simp [rectangle, List.rotate, polygonPerimeterPx_four, a1, a2, a3, a4] <;> ring

theorem polygonPerimeterPx_square_witness :
    (0 : ℝ) ≤ 10
      ∧ polygonPerimeterPx (some ((rectangle (0 : ℝ) 0 10 10).rotate 0)) = 4 * 10
      ∧ polygonPerimeterPx (some ((rectangle (0 : ℝ) 0 10 10).reverse.rotate 0)) = 4 * 10 :=
  ⟨by norm_num, polygonPerimeterPx_square 0 0 10 (by norm_num) 0⟩

/-! ## Calibration -/

theorem distance_eq_zero_iff (p q : Point ℝ) : distance p q = 0 ↔ p = q := by
  unfold distance
  rw [Real.sqrt_eq_zero (by positivity)]
  constructor
  · intro h
    have hx : (q.x - p.x) ^ 2 = 0 := by nlinarith [sq_nonneg (q.x - p.x), sq_nonneg (q.y - p.y)]
    have hy : (q.y - p.y) ^ 2 = 0 := by nlinarith [sq_nonneg (q.x - p.x), sq_nonneg (q.y - p.y)]
    have hx' : q.x - p.x = 0 := by simpa using hx
    have hy' : q.y - p.y = 0 := by simpa using hy
    cases p; cases q
    simp only [Point.mk.injEq] at *
    constructor <;> linarith
  · rintro rfl
    simp

/-- C8: when `calibrate` runs with a reference length `d > 0` and at least two
captured points, it looks at the first two: their pixel distance is 0 exactly when
they are identical; if they are, the calibration is rejected and the state, scale
included, is unchanged; otherwise the scale is set to `d` divided by their Euclidean
pixel distance, which is strictly positive. -/
theorem calibrate_scale (s : ScreenState) (d : ℝ) (p1 p2 : Point ℝ) (rest : List (Point ℝ))
    (href : s.refRealMeters = some d) (hd : 0 < d) (hpts : s.points = p1 :: p2 :: rest) :
    (distance p1 p2 = 0 ↔ p1 = p2)
      ∧ (p1 = p2 → calibrate s = (s, "Points must not be identical."))
      ∧ (p1 ≠ p2 →
          (calibrate s).1.scaleMetersPerPx = some (d / distance p1 p2)
            ∧ 0 < d / distance p1 p2) := by
  have hz := distance_eq_zero_iff p1 p2
  have hl : ¬ rest.length + 1 + 1 < 2 := by omega
  refine ⟨hz, ?_, ?_⟩
  · intro h
    have h0 : distance p1 p2 = 0 := hz.mpr h
    unfold distance at h0
    simp [calibrate, href, hpts, pointAt, h0, hl]
  · intro h
    have h0 : distance p1 p2 ≠ 0 := fun e => h (hz.mp e)
    have hpos : 0 < distance p1 p2 := lt_of_le_of_ne (distance_nonneg _ _) (Ne.symm h0)
    refine ⟨?_, div_pos hd hpos⟩
    unfold distance at h0
    simp [calibrate, href, hpts, pointAt, h0, hl, distance]

theorem calibrate_scale_witness :
    (calibrate ⟨[⟨0, 0⟩, ⟨3, 4⟩], none, some 10, true⟩).1.scaleMetersPerPx
        = some (10 / distance ⟨0, 0⟩ ⟨3, 4⟩)
      ∧ 0 < (10 : ℝ) / distance ⟨0, 0⟩ ⟨3, 4⟩ :=
  (calibrate_scale ⟨[⟨0, 0⟩, ⟨3, 4⟩], none, some 10, true⟩ 10 ⟨0, 0⟩ ⟨3, 4⟩ [] rfl
    (by norm_num) rfl).2.2 (by simp)

/-! ## The shape of the result -/

theorem getBoundingBox_isSome {α : Type} [LinearOrderedField α] (points : List (Point α))
    (h : points ≠ []) : (getBoundingBox points).isSome = true := by
  cases points with
  | nil => exact absurd rfl h
  | cons p ps => simp [getBoundingBox, mathMin, mathMax]

theorem foldl_add_nonneg {α : Type} [LinearOrderedField α] (f : Nat → α)
    (hf : ∀ i, 0 ≤ f i) (l : List Nat) (acc : α) (hacc : 0 ≤ acc) :
    0 ≤ l.foldl (fun s i => s + f i) acc := by
  induction l generalizing acc with
  | nil => simpa using hacc
  | cons i l ih =>
    simp only [List.foldl_cons]
    exact ih _ (add_nonneg hacc (hf i))

theorem measureRoof_success (pts : List (Point ℝ)) (metersPerPx : ℝ) (opts : Opts)
    (h3 : 3 ≤ pts.length) (hc : isClosed pts 10 = true) (hs : isSelfIntersecting pts = false) :
    ∃ pitch price,
      measureRoof (some pts) metersPerPx opts =
        { areaPx := some (polygonAreaPx (some pts))
          perimeterPx := some (polygonPerimeterPx (some pts))
          area := some (convertUnits (polygonAreaPx (some pts)) metersPerPx .area)
          perimeter := some (convertUnits (polygonPerimeterPx (some pts)) metersPerPx .length)
          bbox := getBoundingBox pts
          centroid := some (polygonCentroid pts)
          edgesPx := some (edgeLengthsPx pts)
          edgesMeters := some ((edgeLengthsPx pts).map fun e => e * metersPerPx)
          pitch := some pitch
          price := some price
          points := some pts
          error := none } := by
  have hlen : ¬ pts.length < 3 := by omega
  simp only [measureRoof, hlen, hc, hs]
  exact ⟨_, _, rfl⟩

theorem measureRoof_error_eq_none_iff (points : Option (List (Point ℝ))) (metersPerPx : ℝ)
    (opts : Opts) :
    (measureRoof points metersPerPx opts).error = none ↔
      ∃ pts, points = some pts ∧ 3 ≤ pts.length ∧ isClosed pts 10 = true
        ∧ isSelfIntersecting pts = false := by
  cases points with
  | none => simp [measureRoof, MeasurementResult.failure]
  | some pts =>
    by_cases h3 : pts.length < 3
    · simp [measureRoof, MeasurementResult.failure, h3]
    · by_cases hc : isClosed pts 10 = true
      · by_cases hs : isSelfIntersecting pts = true
        · simp [measureRoof, MeasurementResult.failure, h3, hc, hs]
        · simp [measureRoof, MeasurementResult.failure, h3, hc, hs]
          omega
      · simp [measureRoof, MeasurementResult.failure, h3, hc]

/-- C9: for every input the result of `measureRoof` has exactly one of two shapes:
the error shape (a non-empty message, no other key) or the success shape (`error` is
`null` and `areaPx`, `perimeterPx`, `area`, `perimeter`, `bbox`, `centroid`,
`edgesPx`, `edgesMeters`, `points` are present); the success shape occurs exactly
when the list has at least 3 points, `isClosed` holds and `isSelfIntersecting` is
false. -/
theorem measureRoof_shape (points : Option (List (Point ℝ))) (metersPerPx : ℝ)
    (opts : Opts) :
    let r := measureRoof points metersPerPx opts
    (r.isFailureShape ∨ r.isSuccessShape)
      ∧ ¬ (r.isFailureShape ∧ r.isSuccessShape)
      ∧ (r.isSuccessShape ↔
          ∃ pts, points = some pts ∧ 3 ≤ pts.length ∧ isClosed pts 10 = true
            ∧ isSelfIntersecting pts = false) := by
  intro r
  have hiff := measureRoof_error_eq_none_iff points metersPerPx opts
  have hexcl : ¬ (r.isFailureShape ∧ r.isSuccessShape) := by
    rintro ⟨⟨⟨msg, hm, _⟩, _⟩, hn, _⟩
    rw [hn] at hm
    cases hm
  by_cases hok : ∃ pts, points = some pts ∧ 3 ≤ pts.length ∧ isClosed pts 10 = true
      ∧ isSelfIntersecting pts = false
  · obtain ⟨pts, rfl, h3, hc, hs⟩ := hok
    obtain ⟨pitch, price, hr⟩ := measureRoof_success pts metersPerPx opts h3 hc hs
    have hne : pts ≠ [] := by
      intro h
      rw [h] at h3
      simp at h3
    have hsucc : r.isSuccessShape := by
      show (measureRoof (some pts) metersPerPx opts).isSuccessShape
      rw [hr]
      simp [MeasurementResult.isSuccessShape, getBoundingBox_isSome pts hne]
    exact ⟨Or.inr hsucc, hexcl, fun _ => ⟨pts, rfl, h3, hc, hs⟩, fun _ => hsucc⟩
  · have herr : r.error ≠ none := fun h => hok (hiff.mp h)
    have hfail : r.isFailureShape := by
      show (measureRoof points metersPerPx opts).isFailureShape
      cases points with
      | none => simp [measureRoof, MeasurementResult.failure, MeasurementResult.isFailureShape]
      | some pts =>
        by_cases h3 : pts.length < 3
        · simp [measureRoof, MeasurementResult.failure, MeasurementResult.isFailureShape, h3]
        · by_cases hc : isClosed pts 10 = true
          · by_cases hs : isSelfIntersecting pts = true
            · simp [measureRoof, MeasurementResult.failure,
                MeasurementResult.isFailureShape, h3, hc, hs]
            · exact absurd ⟨pts, rfl, by omega, hc, by simpa using hs⟩ hok
          · simp [measureRoof, MeasurementResult.failure, MeasurementResult.isFailureShape,
              h3, hc]
    exact ⟨Or.inl hfail, hexcl, fun hs => absurd hs.1 herr, fun h => absurd h hok⟩

/-! ## Non-negativity -/

theorem polygonAreaPx_nonneg {α : Type} [LinearOrderedField α]
    (points : Option (List (Point α))) : 0 ≤ polygonAreaPx points := by
  cases points with
  | none => simp [polygonAreaPx]
  | some pts =>
    simp only [polygonAreaPx]
    split
    · exact le_refl _
    · exact div_nonneg (abs_nonneg _) (by norm_num)

theorem polygonPerimeterPx_nonneg (points : Option (List (Point ℝ))) :
    0 ≤ polygonPerimeterPx points := by
  cases points with
  | none => simp [polygonPerimeterPx]
  | some pts =>
    simp only [polygonPerimeterPx]
    split
    · exact le_refl _
    · exact foldl_add_nonneg
        (fun i => distance (pointAt pts i) (pointAt pts ((i + 1) % pts.length)))
        (fun i => distance_nonneg _ _) _ 0 (le_refl _)

theorem edgeLengthsPx_nonneg (pts : List (Point ℝ)) : ∀ e ∈ edgeLengthsPx pts, 0 ≤ e := by
  intro e he
  simp only [edgeLengthsPx, List.mem_map] at he
  obtain ⟨i, _, rfl⟩ := he
  exact distance_nonneg _ _

theorem isClosed_openTriangle : isClosed openTriangle 10 = true := by
  simp only [isClosed, openTriangle, pointAt, distance]
  simp
  norm_num

/-- C10: for every point list `polygonAreaPx` and `polygonPerimeterPx` are `≥ 0`, and
for every successful `measureRoof` result with a positive scale `area.sqm`,
`area.sqft`, `perimeter.meters`, `perimeter.feet` and every entry of `edgesPx` and
`edgesMeters` are `≥ 0`. -/
theorem measureRoof_nonneg :
    (∀ points : Option (List (Point ℝ)),
        0 ≤ polygonAreaPx points ∧ 0 ≤ polygonPerimeterPx points)
      ∧ ∀ (points : Option (List (Point ℝ))) (metersPerPx : ℝ) (opts : Opts),
          0 < metersPerPx → (measureRoof points metersPerPx opts).error = none →
          (∃ a, (measureRoof points metersPerPx opts).area = some a
              ∧ 0 ≤ a.sqm ∧ 0 ≤ a.sqft)
            ∧ (∃ p, (measureRoof points metersPerPx opts).perimeter = some p
              ∧ 0 ≤ p.meters ∧ 0 ≤ p.feet)
            ∧ (∃ es, (measureRoof points metersPerPx opts).edgesPx = some es
              ∧ ∀ e ∈ es, 0 ≤ e)
            ∧ (∃ es, (measureRoof points metersPerPx opts).edgesMeters = some es
              ∧ ∀ e ∈ es, 0 ≤ e) := by
  refine ⟨fun points => ⟨polygonAreaPx_nonneg points, polygonPerimeterPx_nonneg points⟩, ?_⟩
  intro points k opts hk herr
  obtain ⟨pts, rfl, h3, hc, hs⟩ := (measureRoof_error_eq_none_iff points k opts).mp herr
  obtain ⟨pitch, price, hr⟩ := measureRoof_success pts k opts h3 hc hs
  have ha := polygonAreaPx_nonneg (some pts)
  have hp := polygonPerimeterPx_nonneg (some pts)
  rw [hr]
  refine ⟨⟨_, rfl, ?_, ?_⟩, ⟨_, rfl, ?_, ?_⟩, ⟨_, rfl, edgeLengthsPx_nonneg pts⟩, ⟨_, rfl, ?_⟩⟩
  · simp only [convertUnits]
    positivity
  · simp only [convertUnits]
    positivity
  · simp only [convertUnits]
    positivity
  · simp only [convertUnits]
    positivity
  · intro e he
    simp only [List.mem_map] at he
    obtain ⟨e0, he0, rfl⟩ := he
    exact mul_nonneg (edgeLengthsPx_nonneg pts e0 he0) hk.le

theorem measureRoof_nonneg_witness :
    (0 : ℝ) < 1 ∧ (measureRoof (some openTriangle) 1 Opts.empty).error = none
      ∧ ∃ a, (measureRoof (some openTriangle) 1 Opts.empty).area = some a
          ∧ 0 ≤ a.sqm ∧ 0 ≤ a.sqft :=
  have herr : (measureRoof (some openTriangle) 1 Opts.empty).error = none :=
    (measureRoof_error_eq_none_iff _ _ _).mpr
      ⟨openTriangle, rfl, by decide, isClosed_openTriangle, by
        simp [isSelfIntersecting, openTriangle, List.range_succ, List.range']⟩
  ⟨by norm_num, herr,
    (measureRoof_nonneg.2 (some openTriangle) 1 Opts.empty (by norm_num) herr).1⟩

/-! ## Units, price and pitch of a successful measurement -/

theorem measureRoof_success_area (pts : List (Point ℝ)) (metersPerPx : ℝ) (opts : Opts)
    (h3 : 3 ≤ pts.length) (hc : isClosed pts 10 = true) (hs : isSelfIntersecting pts = false) :
    (measureRoof (some pts) metersPerPx opts).areaPx = some (polygonAreaPx (some pts))
      ∧ (measureRoof (some pts) metersPerPx opts).perimeterPx
          = some (polygonPerimeterPx (some pts))
      ∧ (measureRoof (some pts) metersPerPx opts).area
          = some (convertUnits (polygonAreaPx (some pts)) metersPerPx .area)
      ∧ (measureRoof (some pts) metersPerPx opts).perimeter
          = some (convertUnits (polygonPerimeterPx (some pts)) metersPerPx .length) := by
  obtain ⟨pitch, price, hr⟩ := measureRoof_success pts metersPerPx opts h3 hc hs
  rw [hr]
  exact ⟨rfl, rfl, rfl, rfl⟩

theorem measureRoof_success_price (pts : List (Point ℝ)) (metersPerPx : ℝ) (opts : Opts)
    (h3 : 3 ≤ pts.length) (hc : isClosed pts 10 = true) (hs : isSelfIntersecting pts = false) :
    (measureRoof (some pts) metersPerPx opts).price
      = some (if truthy opts.pricePerSqm || truthy opts.pricePerSqft then
          some (calculatePrice (convertUnits (polygonAreaPx (some pts)) metersPerPx .area)
            opts.pricePerSqm opts.pricePerSqft)
        else none) := by
  have hlen : ¬ pts.length < 3 := by omega
  simp only [measureRoof, hlen, hc, hs]
  rfl

theorem measureRoof_success_pitch (pts : List (Point ℝ)) (metersPerPx : ℝ) (opts : Opts)
    (h3 : 3 ≤ pts.length) (hc : isClosed pts 10 = true) (hs : isSelfIntersecting pts = false) :
    (measureRoof (some pts) metersPerPx opts).pitch
      = some (match opts.baseMeters, opts.heightMeters with
          | some baseMeters, some heightMeters =>
            if baseMeters ≠ 0 ∧ heightMeters ≠ 0 then
              some (calculateRoofPitch baseMeters heightMeters)
            else none
          | _, _ => none) := by
  have hlen : ¬ pts.length < 3 := by omega
  simp only [measureRoof, hlen, hc, hs]
  rfl

/-- C11: for every successful `measureRoof` result with scale `k`:
`area.sqm = areaPx * k^2`, `area.sqft = areaPx * k^2 * 3.28084^2`,
`perimeter.meters = perimeterPx * k`, `perimeter.feet = perimeterPx * k * 3.28084`;
hence `area.sqft = area.sqm * 3.28084^2` and `perimeter.feet = perimeter.meters * 3.28084`. -/
theorem measureRoof_units (points : Option (List (Point ℝ))) (metersPerPx : ℝ) (opts : Opts)
    (h : (measureRoof points metersPerPx opts).error = none) :
    ∃ areaPx perimeterPx area perimeter,
      (measureRoof points metersPerPx opts).areaPx = some areaPx
        ∧ (measureRoof points metersPerPx opts).perimeterPx = some perimeterPx
        ∧ (measureRoof points metersPerPx opts).area = some area
        ∧ (measureRoof points metersPerPx opts).perimeter = some perimeter
        ∧ area.sqm = areaPx * metersPerPx ^ 2
        ∧ area.sqft = areaPx * metersPerPx ^ 2 * 3.28084 ^ 2
        ∧ perimeter.meters = perimeterPx * metersPerPx
        ∧ perimeter.feet = perimeterPx * metersPerPx * 3.28084
        ∧ area.sqft = area.sqm * 3.28084 ^ 2
        ∧ perimeter.feet = perimeter.meters * 3.28084 := by
  obtain ⟨pts, rfl, h3, hc, hs⟩ := (measureRoof_error_eq_none_iff points metersPerPx opts).mp h
  obtain ⟨h1, h2, h3', h4⟩ := measureRoof_success_area pts metersPerPx opts h3 hc hs
  refine ⟨_, _, _, _, h1, h2, h3', h4, ?_, ?_, ?_, ?_, ?_, ?_⟩ <;>
    simp only [convertUnits] <;> ring

theorem measureRoof_openTriangle_ok (metersPerPx : ℝ) (opts : Opts) :
    3 ≤ openTriangle.length ∧ isClosed openTriangle 10 = true
      ∧ isSelfIntersecting openTriangle = false
      ∧ (measureRoof (some openTriangle) metersPerPx opts).error = none := by
  have h3 : 3 ≤ openTriangle.length := by decide
  have hs : isSelfIntersecting openTriangle = false := by
    simp [isSelfIntersecting, openTriangle, List.range_succ, List.range']
  exact ⟨h3, isClosed_openTriangle, hs,
    (measureRoof_error_eq_none_iff _ _ _).mpr ⟨openTriangle, rfl, h3, isClosed_openTriangle, hs⟩⟩

theorem polygonAreaPx_openTriangle : polygonAreaPx (some openTriangle) = 6 := by
  simp [polygonAreaPx, openTriangle, List.range_succ, pointAt]
  norm_num

theorem measureRoof_units_witness :
    (measureRoof (some openTriangle) 2 Opts.empty).error = none
      ∧ ∃ area, (measureRoof (some openTriangle) 2 Opts.empty).area = some area
          ∧ area.sqm = 24 := by
  have herr := (measureRoof_openTriangle_ok 2 Opts.empty).2.2.2
  obtain ⟨areaPx, perimeterPx, area, perimeter, h1, _, h3, _, h5, _⟩ :=
    measureRoof_units (some openTriangle) 2 Opts.empty herr
  refine ⟨herr, area, h3, ?_⟩
  obtain ⟨k3, kc, ks, _⟩ := measureRoof_openTriangle_ok 2 Opts.empty
  have := (measureRoof_success_area openTriangle 2 Opts.empty k3 kc ks).1
  rw [h1, polygonAreaPx_openTriangle] at this
  rw [h5, Option.some.inj this]
  norm_num

/-- C12, as stated, fails when a price is given as 0: on a successful call with
`pricePerSqm = 65` and `pricePerSqft = 0` the price is `area.sqm * 65 = 390`, not
`area.sqft * 0`; with `pricePerSqft = 0` alone the price is `null`. -/
theorem measureRoof_price_at_zero :
    (measureRoof (some openTriangle) 1 ⟨some 65, some 0, none, none⟩).error = none
      ∧ (∃ area, (measureRoof (some openTriangle) 1 ⟨some 65, some 0, none, none⟩).area
            = some area
          ∧ (measureRoof (some openTriangle) 1 ⟨some 65, some 0, none, none⟩).price
            = some (some 390)
          ∧ (measureRoof (some openTriangle) 1 ⟨some 65, some 0, none, none⟩).price
            ≠ some (some (area.sqft * 0)))
      ∧ (measureRoof (some openTriangle) 1 ⟨none, some 0, none, none⟩).error = none
      ∧ (measureRoof (some openTriangle) 1 ⟨none, some 0, none, none⟩).price = some none := by
  obtain ⟨k3, kc, ks, herr⟩ := measureRoof_openTriangle_ok 1 ⟨some 65, some 0, none, none⟩
  have hp : (measureRoof (some openTriangle) 1 ⟨some 65, some 0, none, none⟩).price
      = some (some 390) := by
    rw [measureRoof_success_price openTriangle 1 _ k3 kc ks, polygonAreaPx_openTriangle]
    simp [truthy, calculatePrice, convertUnits]
    norm_num
  refine ⟨herr, ⟨_, (measureRoof_success_area openTriangle 1 _ k3 kc ks).2.2.1, hp, ?_⟩,
    (measureRoof_openTriangle_ok 1 _).2.2.2, ?_⟩
  · rw [hp]
    simp
  · rw [measureRoof_success_price openTriangle 1 _ k3 kc ks]
    simp [truthy]

/-- C12, amended: for every successful `measureRoof` call, if `pricePerSqft` is given
and not zero, `price = area.sqft * pricePerSqft`, also when `pricePerSqm` is given as
well; otherwise, if `pricePerSqm` is given and not zero, `price = area.sqm * pricePerSqm`;
when neither is given with a value other than zero, `price` is `null`. -/
theorem measureRoof_price (points : Option (List (Point ℝ))) (metersPerPx : ℝ) (opts : Opts)
    (h : (measureRoof points metersPerPx opts).error = none) :
    ∃ area, (measureRoof points metersPerPx opts).area = some area
      ∧ (∀ perSqft, opts.pricePerSqft = some perSqft → perSqft ≠ 0 →
          (measureRoof points metersPerPx opts).price = some (some (area.sqft * perSqft)))
      ∧ (∀ perSqm, opts.pricePerSqm = some perSqm → perSqm ≠ 0 →
          (opts.pricePerSqft = none ∨ opts.pricePerSqft = some 0) →
          (measureRoof points metersPerPx opts).price = some (some (area.sqm * perSqm)))
      ∧ ((opts.pricePerSqm = none ∨ opts.pricePerSqm = some 0) →
          (opts.pricePerSqft = none ∨ opts.pricePerSqft = some 0) →
          (measureRoof points metersPerPx opts).price = some none) := by
  obtain ⟨pts, rfl, h3, hc, hs⟩ := (measureRoof_error_eq_none_iff points metersPerPx opts).mp h
  have ha := (measureRoof_success_area pts metersPerPx opts h3 hc hs).2.2.1
  have hp := measureRoof_success_price pts metersPerPx opts h3 hc hs
  refine ⟨_, ha, ?_, ?_, ?_⟩
  · intro f hf hf0
    rw [hp, hf]
    simp [truthy, calculatePrice, hf0]
  · intro m hm hm0 hf
    rw [hp, hm]
    rcases hf with hf | hf <;> rw [hf] <;> simp [truthy, calculatePrice, hm0]
  · intro hm hf
    rw [hp]
    rcases hm with hm | hm <;> rcases hf with hf | hf <;> rw [hm, hf] <;> simp [truthy]

theorem measureRoof_price_witness :
    (measureRoof (some openTriangle) 1 ⟨some 65, none, none, none⟩).error = none
      ∧ (measureRoof (some openTriangle) 1 ⟨some 65, none, none, none⟩).price
          = some (some 390) := by
  have herr := (measureRoof_openTriangle_ok 1 ⟨some 65, none, none, none⟩).2.2.2
  obtain ⟨area, ha, _, hsqm, _⟩ :=
    measureRoof_price (some openTriangle) 1 ⟨some 65, none, none, none⟩ herr
  refine ⟨herr, ?_⟩
  rw [hsqm 65 rfl (by norm_num) (Or.inl rfl)]
  obtain ⟨k3, kc, ks, _⟩ := measureRoof_openTriangle_ok 1 ⟨some 65, none, none, none⟩
  have := (measureRoof_success_area openTriangle 1 ⟨some 65, none, none, none⟩ k3 kc ks).2.2.1
  rw [ha, polygonAreaPx_openTriangle] at this
  rw [Option.some.inj this]
  simp [convertUnits]
  norm_num

/-- C13, as stated, fails when a length is given as 0: on a successful call with
`baseMeters = 4` and `heightMeters = 0`, and with `baseMeters = 0` and
`heightMeters = 3`, both keys are given and `pitch` is `null`. -/
theorem measureRoof_pitch_at_zero :
    (measureRoof (some openTriangle) 1 ⟨none, none, some 4, some 0⟩).error = none
      ∧ (measureRoof (some openTriangle) 1 ⟨none, none, some 4, some 0⟩).pitch = some none
      ∧ (measureRoof (some openTriangle) 1 ⟨none, none, some 0, some 3⟩).error = none
      ∧ (measureRoof (some openTriangle) 1 ⟨none, none, some 0, some 3⟩).pitch = some none := by
  obtain ⟨k3, kc, ks, _⟩ := measureRoof_openTriangle_ok 1 Opts.empty
  refine ⟨(measureRoof_openTriangle_ok 1 _).2.2.2, ?_, (measureRoof_openTriangle_ok 1 _).2.2.2, ?_⟩
  · rw [measureRoof_success_pitch openTriangle 1 _ k3 kc ks]
    simp
  · rw [measureRoof_success_pitch openTriangle 1 _ k3 kc ks]
    simp

/-- C13, amended: for every successful `measureRoof` call, when `baseMeters` and
`heightMeters` are both given and neither is zero, `pitch` is present with
`pitchRatio = heightMeters / baseMeters` and
`pitchDegrees = arctan(pitchRatio) * 180 / pi`; when one of them is not given, or
`baseMeters` is 0, `pitch` is `null`; equal base and height give 45 degrees. -/
theorem measureRoof_pitch (points : Option (List (Point ℝ))) (metersPerPx : ℝ) (opts : Opts)
    (h : (measureRoof points metersPerPx opts).error = none) :
    (∀ base height, opts.baseMeters = some base → opts.heightMeters = some height →
        base ≠ 0 → height ≠ 0 →
        ∃ pitch, (measureRoof points metersPerPx opts).pitch = some (some pitch)
          ∧ pitch.pitchRatio = height / base
          ∧ pitch.pitchDegrees = Real.arctan (height / base) * 180 / Real.pi)
      ∧ (opts.baseMeters = none ∨ opts.heightMeters = none ∨ opts.baseMeters = some 0 →
          (measureRoof points metersPerPx opts).pitch = some none)
      ∧ (∀ base, base ≠ 0 → (calculateRoofPitch base base).pitchDegrees = 45) := by
  obtain ⟨pts, rfl, h3, hc, hs⟩ := (measureRoof_error_eq_none_iff points metersPerPx opts).mp h
  have hp := measureRoof_success_pitch pts metersPerPx opts h3 hc hs
  refine ⟨?_, ?_, ?_⟩
  · intro b ht hb hh hb0 hh0
    refine ⟨calculateRoofPitch b ht, ?_, rfl, ?_⟩
    · rw [hp, hb, hh]
      simp [hb0, hh0]
    · simp only [calculateRoofPitch]
      ring
  · intro hcase
    rw [hp]
    rcases hcase with hb | hh | hb
    · rw [hb]
    · rw [hh]
      cases opts.baseMeters <;> rfl
    · rw [hb]
      cases opts.heightMeters <;> simp
  · intro b hb
    simp only [calculateRoofPitch, div_self hb, Real.arctan_one]
    field_simp
    ring

theorem measureRoof_pitch_witness :
    (measureRoof (some openTriangle) 1 ⟨none, none, some 4, some 4⟩).error = none
      ∧ ∃ pitch, (measureRoof (some openTriangle) 1 ⟨none, none, some 4, some 4⟩).pitch
            = some (some pitch)
          ∧ pitch.pitchRatio = 4 / 4 :=
  have herr := (measureRoof_openTriangle_ok 1 ⟨none, none, some 4, some 4⟩).2.2.2
  have hp := (measureRoof_pitch (some openTriangle) 1 ⟨none, none, some 4, some 4⟩ herr).1
    4 4 rfl rfl (by norm_num) (by norm_num)
  ⟨herr, hp.choose, hp.choose_spec.1, hp.choose_spec.2.1⟩

/-! ## Pricing -/

section PricingFacts

variable {α : Type} [LinearOrderedField α]

theorem foldl_add_eq_sum {β : Type} (f : β → α) (l : List β) (a : α) :
    l.foldl (fun acc x => acc + f x) a = a + (l.map f).sum := by
  induction l generalizing a with
  | nil => simp
  | cons x l ih =>
    simp only [List.foldl_cons, List.map_cons, List.sum_cons, ih]
    ring

theorem foldl_tiers (base : α) (tiers : List (Tier α)) (a : α) :
    tiers.foldl (fun discountTotal t =>
        if base ≥ t.min then discountTotal + base * (t.value / 100) else discountTotal) a
      = a + ((tiers.filter fun t => decide (t.min ≤ base)).map
          fun t => base * t.value / 100).sum := by
  induction tiers generalizing a with
  | nil => simp
  | cons t tiers ih =>
    simp only [List.foldl_cons, ih, List.filter_cons]
    by_cases h : t.min ≤ base
    · simp only [ge_iff_le, h, if_true, decide_True, List.map_cons, List.sum_cons]
      ring
    · simp only [ge_iff_le, h, if_false, decide_False]
      simp

theorem currencyRates_pos (code : String) (rate : α) (h : currencyRates α code = some rate) :
    0 < rate := by
  unfold currencyRates at h
  split_ifs at h <;> simp at h <;> rw [← h] <;> norm_num

theorem convertCurrency_of_USD (amount : α) (code : String) (rate : α)
    (h : currencyRates α code = some rate) :
    convertCurrency amount "USD" code = some (rate * amount) := by
  by_cases hc : "USD" = code
  · subst hc
    have : rate = 1 := by
      simp [currencyRates] at h
      exact h.symm
    simp [convertCurrency, this]
  · have hu : currencyRates α "USD" = some 1 := by simp [currencyRates]
    simp only [convertCurrency, hc, if_false, hu, h]
    simp [mul_comm]

end PricingFacts

/-- C14: for every input whose currency is a key of the rate table, with rate `r`:
let `A` be `area.sqm` if the unit is `'sqm'` and `area.sqft` otherwise,
`B = A * basePrice`, `X = calculateAddOns(addOns)`, `S = B + X`,
`D = calculateDiscounts(S, discounts)`, `T = calculateTaxes(S - D, taxRates)`. Then
`calculatePriceDetails` returns `base = r * B`, `addOnTotal = r * X`,
`discountTotal = r * D`, `taxTotal = r * T`, `total = r * (S - D + T)`, and carries
over the currency, the unit and the breakdown (`A`, the base price, the add-ons, the
discounts, the tax rates) unchanged. -/
theorem calculatePriceDetails_eq {α : Type} [LinearOrderedField α] (input : PriceInput α)
    (rate : α) (h : currencyRates α input.currency = some rate) :
    let areaValue := if input.unit = "sqm" then input.area.sqm else input.area.sqft
    let base := areaValue * input.basePrice
    let addOnTotal := calculateAddOns input.addOns
    let subtotal := base + addOnTotal
    let discountTotal := calculateDiscounts subtotal input.discounts
    let taxTotal := calculateTaxes (subtotal - discountTotal) input.taxRates
    let details := calculatePriceDetails input
    details.base = some (rate * base)
      ∧ details.addOnTotal = some (rate * addOnTotal)
      ∧ details.discountTotal = some (rate * discountTotal)
      ∧ details.taxTotal = some (rate * taxTotal)
      ∧ details.total = some (rate * (subtotal - discountTotal + taxTotal))
      ∧ details.currency = input.currency
      ∧ details.unit = input.unit
      ∧ details.breakdown = ⟨areaValue, input.basePrice, input.addOns, input.discounts,
          input.taxRates⟩ := by
  intro areaValue base addOnTotal subtotal discountTotal taxTotal details
  refine ⟨?_, ?_, ?_, ?_, ?_, rfl, rfl, rfl⟩ <;>
    exact convertCurrency_of_USD _ _ _ h

theorem calculatePriceDetails_eq_witness :
    currencyRates ℚ euroQuote.currency = some 0.93
      ∧ (calculatePriceDetails euroQuote).base = some (0.93 * (100 * 10)) :=
  have h : currencyRates ℚ euroQuote.currency = some 0.93 := by
    simp [currencyRates, euroQuote]
  ⟨h, (calculatePriceDetails_eq euroQuote 0.93 h).1⟩

/-- C15: for every area, base price and unit, `calculatePriceDetails` with no
discounts, no tax rates, no add-ons and the default currency returns `total` equal to
`base`, `base` equal to `areaValue * basePrice`, and `discountTotal`, `taxTotal`,
`addOnTotal` all 0. -/
theorem calculatePriceDetails_plain {α : Type} [LinearOrderedField α] (area : Area α)
    (basePrice : α) (unit : String) :
    let details := calculatePriceDetails (⟨area, basePrice, [], [], [], "USD", unit⟩ : PriceInput α)
    details.total = details.base
      ∧ details.base = some ((if unit = "sqm" then area.sqm else area.sqft) * basePrice)
      ∧ details.breakdown.area = (if unit = "sqm" then area.sqm else area.sqft)
      ∧ details.discountTotal = some 0
      ∧ details.taxTotal = some 0
      ∧ details.addOnTotal = some 0 := by
  simp [calculatePriceDetails, calculateAddOns, calculateDiscounts, calculateTaxes,
    convertCurrency]

/-- C16: `calculateDiscounts` is the sum over the discount list of what each discount
takes off: a tiered discount takes `b * value / 100` for every tier whose `min` is at
most `b` (every satisfied tier), a fixed discount its value, a percent discount
`b * value / 100`; the tiers `[{min: 100, value: 5}, {min: 200, value: 10}]` with
`b = 250` give 37.5. -/
theorem calculateDiscounts_sum {α : Type} [LinearOrderedField α] (base : α)
    (discounts : List (Discount α)) :
    calculateDiscounts base discounts = (discounts.map (discountAmount base)).sum
      ∧ (∀ tiers : List (Tier α), calculateDiscounts base [.tiered tiers]
          = ((tiers.filter fun t => decide (t.min ≤ base)).map
              fun t => base * t.value / 100).sum)
      ∧ (∀ value : α, calculateDiscounts base [.fixed value] = value)
      ∧ (∀ value : α, calculateDiscounts base [.percent value] = base * value / 100)
      ∧ calculateDiscounts (250 : α) [.tiered [⟨100, 5⟩, ⟨200, 10⟩]] = 37.5 := by
  have step : ∀ (acc : α) (d : Discount α),
      (match d with
        | .fixed value => acc + value
        | .percent value => acc + base * (value / 100)
        | .tiered tiers =>
          tiers.foldl (fun discountTotal t =>
            if base ≥ t.min then discountTotal + base * (t.value / 100) else discountTotal)
            acc
        | .other => acc) = acc + discountAmount base d := by
    intro acc d
    cases d with
    | fixed value => rfl
    | percent value => simp only [discountAmount]; ring
    | tiered tiers => simp only [discountAmount, foldl_tiers]
    | other => simp [discountAmount]
  have main : ∀ (l : List (Discount α)),
      calculateDiscounts base l = (l.map (discountAmount base)).sum := by
    intro l
    unfold calculateDiscounts
    rw [show (fun (discountTotal : α) (discount : Discount α) =>
        match discount with
        | .fixed value => discountTotal + value
        | .percent value => discountTotal + base * (value / 100)
        | .tiered tiers =>
          tiers.foldl (fun discountTotal t =>
            if base ≥ t.min then discountTotal + base * (t.value / 100) else discountTotal)
            discountTotal
        | .other => discountTotal)
        = fun acc d => acc + discountAmount base d from funext fun acc => funext (step acc)]
    rw [foldl_add_eq_sum]
    simp
  refine ⟨main discounts, ?_, ?_, ?_, ?_⟩
  · intro tiers
    simp [main, discountAmount]
  · intro value
    simp [main, discountAmount]
  · intro value
    simp [main, discountAmount]
  · simp [calculateDiscounts]
    norm_num

/-- C17: for the single add-on `{ price: 100, quantity: 0 }`, `calculateAddOns`
returns 100, where price times the given quantity is 0: a quantity of 0 is replaced
by 1. On every list in which no quantity is given as 0, `calculateAddOns` is the sum
of price times quantity, the quantity counting as 1 when it is not given. -/
theorem calculateAddOns_zero_quantity :
    calculateAddOns ([⟨some 100, some 0⟩] : List (AddOn ℚ)) = 100
      ∧ addOnAmount (⟨some 100, some 0⟩ : AddOn ℚ) = 0
      ∧ ∀ addOns : List (AddOn ℚ), (∀ a ∈ addOns, a.quantity ≠ some 0) →
          calculateAddOns addOns = (addOns.map addOnAmount).sum := by
  refine ⟨by simp [calculateAddOns, orDefault], by simp [addOnAmount], ?_⟩
  intro addOns h
  unfold calculateAddOns
  rw [foldl_add_eq_sum, zero_add]
  congr 1
  apply List.map_congr_left
  intro a ha
  have hq : orDefault a.quantity 1 = a.quantity.getD 1 := by
    have := h a ha
    cases hqa : a.quantity with
    | none => rfl
    | some q =>
      have hq0 : q ≠ 0 := fun e => this (by rw [hqa, e])
      simp [orDefault, hq0]
  have hp : orDefault a.price 0 = a.price.getD 0 := by
    cases hpa : a.price with
    | none => rfl
    | some p =>
      by_cases hp0 : p = 0
      · simp [orDefault, hp0]
      · simp [orDefault, hp0]
  rw [hq, hp, addOnAmount]

/-- C18: for every subtotal `s` and every list of tax rates,
`calculateTaxes(s, rates) = s * (sum of rate.value) / 100`; it is additive over the
concatenation of lists and does not depend on the order of the rates. -/
theorem calculateTaxes_sum {α : Type} [LinearOrderedField α] (subtotal : α)
    (taxRates : List (TaxRate α)) :
    calculateTaxes subtotal taxRates = subtotal * (taxRates.map fun r => r.value).sum / 100
      ∧ (∀ more : List (TaxRate α), calculateTaxes subtotal (taxRates ++ more)
          = calculateTaxes subtotal taxRates + calculateTaxes subtotal more)
      ∧ (∀ other : List (TaxRate α), taxRates.Perm other →
          calculateTaxes subtotal other = calculateTaxes subtotal taxRates) := by
  have main : ∀ l : List (TaxRate α),
      calculateTaxes subtotal l = subtotal * (l.map fun r => r.value).sum / 100 := by
    intro l
    unfold calculateTaxes
    rw [foldl_add_eq_sum, zero_add]
    induction l with
    | nil => simp
    | cons r l ih =>
      simp only [List.map_cons, List.sum_cons, ih]
      ring
  refine ⟨main taxRates, ?_, ?_⟩
  · intro more
    simp only [main, List.map_append, List.sum_append]
    ring
  · intro other hperm
    rw [main, main, (hperm.map fun r => r.value).sum_eq]

/-- C19: for every amount `x` and all currencies `A`, `B` of the rate table,
`convertCurrency(x, A, A) = x`, `convertCurrency(x, A, B) = (x / rate[A]) * rate[B]`,
which is `convertCurrency(convertCurrency(x, A, 'USD'), 'USD', B)`; and
`convertCurrency(100, 'USD', 'EUR') = 93`. -/
theorem convertCurrency_table {α : Type} [LinearOrderedField α] (amount : α)
    (codeA codeB : String) (rateA rateB : α)
    (hA : currencyRates α codeA = some rateA) (hB : currencyRates α codeB = some rateB) :
    convertCurrency amount codeA codeA = some amount
      ∧ convertCurrency amount codeA codeB = some (amount / rateA * rateB)
      ∧ (convertCurrency amount codeA "USD").bind (fun usd => convertCurrency usd "USD" codeB)
          = convertCurrency amount codeA codeB
      ∧ convertCurrency (100 : α) "USD" "EUR" = some 93 := by
  have hA0 : rateA ≠ 0 := (currencyRates_pos codeA rateA hA).ne'
  have hu : currencyRates α "USD" = some 1 := by simp [currencyRates]
  have hAB : convertCurrency amount codeA codeB = some (amount / rateA * rateB) := by
    by_cases h : codeA = codeB
    · subst h
      have : rateB = rateA := by
        rw [hA] at hB
        exact (Option.some.inj hB).symm
      rw [this]
      simp [convertCurrency, hA0]
    · simp [convertCurrency, h, hA, hB]
  have hAU : convertCurrency amount codeA "USD" = some (amount / rateA) := by
    by_cases h : codeA = "USD"
    · subst h
      have : rateA = 1 := by
        rw [hu] at hA
        exact (Option.some.inj hA).symm
      simp [convertCurrency, this]
    · simp [convertCurrency, h, hA, hu]
  refine ⟨by simp [convertCurrency], hAB, ?_, ?_⟩
  · rw [hAU, hAB]
    show convertCurrency (amount / rateA) "USD" codeB = some (amount / rateA * rateB)
    rw [convertCurrency_of_USD _ codeB rateB hB, mul_comm]
  · simp [convertCurrency, currencyRates]
    norm_num

theorem convertCurrency_table_witness :
    currencyRates ℚ "EUR" = some 0.93 ∧ currencyRates ℚ "GBP" = some 0.79
      ∧ convertCurrency (100 : ℚ) "EUR" "GBP" = some (100 / 0.93 * 0.79) :=
  have hA : currencyRates ℚ "EUR" = some 0.93 := by simp [currencyRates]
  have hB : currencyRates ℚ "GBP" = some 0.79 := by simp [currencyRates]
  ⟨hA, hB, (convertCurrency_table 100 "EUR" "GBP" 0.93 0.79 hA hB).2.1⟩

/-- C20: for the input with `area.sqm = 1`, `basePrice = 10` and currency
`'toString'`, `validateQuoteInput` returns `null` although `'toString'` is no key of
the rate table and a conversion to it yields `NaN`: the lookup finds the inherited
member, which is truthy. For every input whose currency is no inherited name,
`validateQuoteInput` returns `null` exactly when the area is positive, the base price
is positive and the currency code is a key of the rate table, and otherwise the reason
of the first failing check, in the order area, base price, currency. -/
theorem validateQuoteInput_inherited_name {α : Type} [LinearOrderedField α] :
    validateQuoteInput (⟨some ⟨1, 10.7639⟩, some 10, some "toString"⟩ : QuoteInput α) = none
      ∧ ¬ currencySupported (⟨some ⟨1, 10.7639⟩, some 10, some "toString"⟩ : QuoteInput α)
      ∧ convertCurrency (10 : α) "USD" "toString" = none
      ∧ ∀ input : QuoteInput α,
          (∀ code, input.currency = some code → code ∉ inheritedNames) →
          (validateQuoteInput input = none
              ↔ areaPositive input ∧ basePricePositive input ∧ currencySupported input)
            ∧ (¬ areaPositive input →
                validateQuoteInput input = some "Area must be greater than zero.")
            ∧ (areaPositive input → ¬ basePricePositive input →
                validateQuoteInput input = some "Base price must be positive.")
            ∧ (areaPositive input → basePricePositive input → ¬ currencySupported input →
                validateQuoteInput input = some "Unsupported currency.") := by
  have hrate : currencyRates α "toString" = none := by simp [currencyRates]
  refine ⟨?_, ?_, ?_, ?_⟩
  · have hin : inheritedNames.contains "toString" = true := by decide
    simp only [validateQuoteInput, rateLookupFalsy, hrate, hin]
    norm_num
  · rintro ⟨code, rate, hc, hr⟩
    cases hc
    rw [hrate] at hr
    cases hr
  · simp [convertCurrency, hrate]
  intro input hname
  have hArea : (match input.area with
      | none => true
      | some area => decide (area.sqm ≤ 0)) = true ↔ ¬ areaPositive input := by
    unfold areaPositive
    cases input.area with
    | none => simp
    | some a => simp
  have hPrice : (match input.basePrice with
      | none => true
      | some basePrice => decide (basePrice = 0 ∨ basePrice ≤ 0)) = true
        ↔ ¬ basePricePositive input := by
    unfold basePricePositive
    cases input.basePrice with
    | none => simp
    | some b =>
      simp only [decide_eq_true_eq, Option.some.injEq, exists_eq_left', not_lt]
      constructor
      · rintro (h | h)
        · exact h.le
        · exact h
      · intro h
        exact Or.inr h
  have hCur : rateLookupFalsy α input.currency = true ↔ ¬ currencySupported input := by
    unfold currencySupported rateLookupFalsy
    cases hc : input.currency with
    | none => simp
    | some code =>
      cases hr : currencyRates α code with
      | none => simp [hr, hname code hc]
      | some rate =>
        have := (currencyRates_pos code rate hr).ne'
        simp [hr, this]
  unfold validateQuoteInput
  by_cases h1 : areaPositive input
  · have k1 := (not_congr hArea).mpr (not_not.mpr h1)
    by_cases h2 : basePricePositive input
    · have k2 := (not_congr hPrice).mpr (not_not.mpr h2)
      by_cases h3 : currencySupported input
      · have k3 := (not_congr hCur).mpr (not_not.mpr h3)
        simp only [k1, k2, k3, if_false]
        simp [h1, h2, h3]
      · have k3 := hCur.mpr h3
        simp only [k1, k2, k3, if_false, if_true]
        simp [h1, h2, h3]
    · have k2 := hPrice.mpr h2
      simp only [k1, k2, if_false, if_true]
      simp [h1, h2]
  · have k1 := hArea.mpr h1
    simp only [k1, if_true]
    simp [h1]

/-! ## Exports and texts -/

theorem unlines_append (a b : List String) : unlines (a ++ b) = unlines a ++ unlines b := by
  induction a with
  | nil => simp [unlines]
  | cons row a ih =>
    simp only [unlines, List.cons_append, List.foldr_cons] at ih ⊢
    rw [ih]
    simp only [String.append_assoc]

theorem foldl_rows {β : Type} (row : β → String) (l : List β) (init : String) :
    l.foldl (fun csv p => csv ++ (row p ++ "\n")) init = init ++ unlines (l.map row) := by
  induction l generalizing init with
  | nil => simp [unlines]
  | cons p l ih =>
    simp only [List.foldl_cons, List.map_cons, ih, unlines, List.foldr_cons,
      String.append_assoc]

theorem count_newline_unlines (rows : List String)
    (h : ∀ row ∈ rows, row.data.count '\n' = 0) :
    (unlines rows).data.count '\n' = rows.length := by
  induction rows with
  | nil => rfl
  | cons row rows ih =>
    have h1 := h row (List.mem_cons_self _ _)
    have h2 := ih fun r hr => h r (List.mem_cons_of_mem _ hr)
    have h3 : "\n".data.count '\n' = 1 := by decide
    simp only [unlines, List.foldr_cons] at h2 ⊢
    simp only [String.data_append, List.count_append, h1, h2, h3, List.length_cons]
    omega

theorem exportToCSV_success (str : ℝ → String) (result : MeasurementResult)
    (area : Area ℝ) (perimeter : Length ℝ) (bbox : BBox ℝ) (points : List (Point ℝ))
    (he : result.error = none) (ha : result.area = some area)
    (hp : result.perimeter = some perimeter) (hb : result.bbox = some bbox)
    (hpts : result.points = some points) :
    exportToCSV str result = some (unlines (csvRows str area perimeter bbox points)) := by
  simp only [exportToCSV, he, ha, hp, hb, hpts, csvRows, unlines_append, foldl_rows]
  simp only [unlines, List.foldr, String.append_assoc, String.append_empty,
    Bool.false_eq_true, if_false, Option.some.injEq]
  apply String.ext
  simp only [String.data_append]
  rfl

theorem csvRows_newlines (str : ℝ → String) (hstr : ∀ x, (str x).data.count '\n' = 0)
    (area : Area ℝ) (perimeter : Length ℝ) (bbox : BBox ℝ) (points : List (Point ℝ)) :
    ∀ row ∈ csvRows str area perimeter bbox points, row.data.count '\n' = 0 := by
  intro row hrow
  simp only [csvRows, List.mem_append, List.mem_cons, List.mem_map, List.mem_singleton,
    List.not_mem_nil, or_false] at hrow
  have hcomma : ",".data.count '\n' = 0 := by decide
  rcases hrow with (rfl | ⟨p, _, rfl⟩) | hrow
  · decide
  · simp only [String.data_append, List.count_append, hstr, hcomma]
  · rcases hrow with rfl | rfl | rfl | rfl | rfl | rfl | rfl | rfl <;>
      simp only [String.data_append, List.count_append, hstr] <;> decide

theorem measureRoof_error_nonempty (points : Option (List (Point ℝ))) (metersPerPx : ℝ)
    (opts : Opts) (msg : String)
    (h : (measureRoof points metersPerPx opts).error = some msg) : msg ≠ "" := by
  cases points with
  | none =>
    simp [measureRoof, MeasurementResult.failure] at h
    rw [← h]
    decide
  | some pts =>
    by_cases h3 : pts.length < 3
    · simp [measureRoof, MeasurementResult.failure, h3] at h
      rw [← h]
      decide
    · by_cases hc : isClosed pts 10 = true
      · by_cases hs : isSelfIntersecting pts = true
        · simp [measureRoof, MeasurementResult.failure, h3, hc, hs] at h
          rw [← h]
          decide
        · simp [measureRoof, MeasurementResult.failure, h3, hc, hs] at h
      · simp [measureRoof, MeasurementResult.failure, h3, hc] at h
        rw [← h]
        decide

/-- C21: `exportToCSV` returns the empty text when the result has an error; otherwise
it returns the header row `x,y`, then one `x,y` row per point in the order of the
list, then the eight key,value rows `Area(m2)`, `Area(ft2)`, `Perimeter(m)`,
`Perimeter(ft)`, `BBox(minX)`, `BBox(minY)`, `BBox(maxX)`, `BBox(maxY)`, each row
followed by a newline: `n + 9` rows for `n` points, and `n + 9` newlines when the
rendering of a number contains none. On every result of `measureRoof` it returns a
text. -/
theorem exportToCSV_rows (str : ℝ → String) :
    (∀ (result : MeasurementResult) (msg : String), result.error = some msg → msg ≠ "" →
        exportToCSV str result = some "")
      ∧ (∀ (result : MeasurementResult) (area : Area ℝ) (perimeter : Length ℝ)
          (bbox : BBox ℝ) (points : List (Point ℝ)),
          result.error = none → result.area = some area →
          result.perimeter = some perimeter → result.bbox = some bbox →
          result.points = some points →
          exportToCSV str result = some (unlines (csvRows str area perimeter bbox points))
            ∧ (csvRows str area perimeter bbox points).length = points.length + 9
            ∧ ((∀ x, (str x).data.count '\n' = 0) →
                (unlines (csvRows str area perimeter bbox points)).data.count '\n'
                  = points.length + 9))
      ∧ (∀ (points : Option (List (Point ℝ))) (metersPerPx : ℝ) (opts : Opts),
          ∃ csv, exportToCSV str (measureRoof points metersPerPx opts) = some csv) := by
  have hlen : ∀ (area : Area ℝ) (perimeter : Length ℝ) (bbox : BBox ℝ)
      (points : List (Point ℝ)),
      (csvRows str area perimeter bbox points).length = points.length + 9 := by
    intro area perimeter bbox points
    simp [csvRows]
  refine ⟨?_, ?_, ?_⟩
  · intro result msg he hmsg
    simp [exportToCSV, he, hmsg]
  · intro result area perimeter bbox points he ha hp hb hpts
    refine ⟨exportToCSV_success str result area perimeter bbox points he ha hp hb hpts,
      hlen _ _ _ _, fun hstr => ?_⟩
    rw [count_newline_unlines _ (csvRows_newlines str hstr area perimeter bbox points), hlen]
  · intro points k opts
    cases he : (measureRoof points k opts).error with
    | some msg =>
      have hmsg := measureRoof_error_nonempty points k opts msg he
      exact ⟨"", by simp [exportToCSV, he, hmsg]⟩
    | none =>
      obtain ⟨pts, rfl, h3, hc, hs⟩ := (measureRoof_error_eq_none_iff points k opts).mp he
      obtain ⟨pitch, price, hr⟩ := measureRoof_success pts k opts h3 hc hs
      have hne : pts ≠ [] := by
        intro h
        rw [h] at h3
        simp at h3
      obtain ⟨bbox, hb⟩ := Option.isSome_iff_exists.mp (getBoundingBox_isSome pts hne)
      obtain ⟨_, _, ha, hp⟩ := measureRoof_success_area pts k opts h3 hc hs
      refine ⟨_, exportToCSV_success str _ _ _ bbox pts he ha hp ?_ ?_⟩
      · rw [hr]
        exact hb
      · rw [hr]

theorem exportToCSV_rows_witness :
    (measureRoof (some openTriangle) 1 Opts.empty).error = none
      ∧ ∃ area perimeter bbox,
        exportToCSV (fun _ => "0") (measureRoof (some openTriangle) 1 Opts.empty)
          = some (unlines (csvRows (fun _ => "0") area perimeter bbox openTriangle))
        ∧ (csvRows (fun _ => "0") area perimeter bbox openTriangle).length = 3 + 9 := by
  obtain ⟨k3, kc, ks, herr⟩ := measureRoof_openTriangle_ok 1 Opts.empty
  obtain ⟨pitch, price, hr⟩ := measureRoof_success openTriangle 1 Opts.empty k3 kc ks
  obtain ⟨bbox, hb⟩ := Option.isSome_iff_exists.mp
    (getBoundingBox_isSome openTriangle (by simp [openTriangle]))
  obtain ⟨_, _, ha, hp⟩ := measureRoof_success_area openTriangle 1 Opts.empty k3 kc ks
  have h := (exportToCSV_rows (fun _ => "0")).2.1
    (measureRoof (some openTriangle) 1 Opts.empty) _ _ bbox openTriangle herr
    ha hp (by rw [hr]; exact hb) (by rw [hr])
  exact ⟨herr, _, _, bbox, h.1, h.2.1⟩

theorem quoteLines_concat {α : Type} [LinearOrderedField α] (toFixed : α → String)
    (details : PriceDetails α) :
    formatQuoteDetails toFixed (some details)
      = (quoteLines toFixed details).foldr (fun line rest => line ++ rest) "" := by
  simp only [formatQuoteDetails, quoteLines]
  cases figurePositive details.addOnTotal <;> cases figurePositive details.discountTotal <;>
    cases figurePositive details.taxTotal <;>
    simp only [if_true, if_false, Bool.false_eq_true, List.append_nil, List.cons_append,
      List.nil_append, List.foldr, String.append_assoc, String.append_empty,
      String.empty_append]

/-- C22: for missing details `formatQuoteDetails` returns 'No quote details.';
otherwise its text is the sequence of its lines, which begins with the Base line, ends
with the Total line, and has between them, in this order, the Add-ons line exactly
when `addOnTotal > 0`, the Discounts line exactly when `discountTotal > 0` and the
Tax line exactly when `taxTotal > 0`. -/
theorem formatQuoteDetails_lines {α : Type} [LinearOrderedField α] (toFixed : α → String) :
    formatQuoteDetails toFixed none = "No quote details."
      ∧ ∀ details : PriceDetails α,
        formatQuoteDetails toFixed (some details)
            = (quoteLines toFixed details).foldr (fun line rest => line ++ rest) ""
          ∧ (quoteLines toFixed details).head?
              = some ("Base: " ++ details.currency ++ " $"
                  ++ figureToFixed toFixed details.base ++ "\n")
          ∧ (quoteLines toFixed details).getLast?
              = some ("Total: $" ++ figureToFixed toFixed details.total)
          ∧ (∃ first last, quoteLines toFixed details
              = [first]
                ++ (if figurePositive details.addOnTotal then
                      ["Add-ons: $" ++ figureToFixed toFixed details.addOnTotal ++ "\n"]
                    else [])
                ++ (if figurePositive details.discountTotal then
                      ["Discounts: -$" ++ figureToFixed toFixed details.discountTotal ++ "\n"]
                    else [])
                ++ (if figurePositive details.taxTotal then
                      ["Tax: +$" ++ figureToFixed toFixed details.taxTotal ++ "\n"]
                    else [])
                ++ [last])
          ∧ (∀ v : Option α, figurePositive v = true ↔ ∃ x, v = some x ∧ 0 < x) := by
  refine ⟨rfl, fun details => ⟨quoteLines_concat toFixed details, ?_, ?_, ⟨_, _, rfl⟩, ?_⟩⟩
  · simp [quoteLines]
  · simp only [quoteLines]
    cases figurePositive details.addOnTotal <;> cases figurePositive details.discountTotal <;>
      cases figurePositive details.taxTotal <;> simp
  · intro v
    cases v <;> simp [figurePositive]

/-! ## Quotes in other currencies and below zero -/

/-- C23: the post-discount subtotal is not floored at zero: the input with
`area.sqm = 1`, `basePrice = 10`, one fixed discount of 50, no taxes and currency USD
is accepted by `validateQuoteInput`, and `calculatePriceDetails` returns the total
`-40` for it. -/
theorem calculatePriceDetails_negative_total :
    validateQuoteInput (⟨some overDiscounted.area, some overDiscounted.basePrice,
        some overDiscounted.currency⟩ : QuoteInput ℚ) = none
      ∧ overDiscounted.area.sqm = 1 ∧ overDiscounted.basePrice = 10
      ∧ overDiscounted.discounts = [.fixed 50] ∧ overDiscounted.taxRates = []
      ∧ (calculatePriceDetails overDiscounted).total = some (-40) := by
  refine ⟨?_, rfl, rfl, rfl, rfl, ?_⟩
  · simp [validateQuoteInput, rateLookupFalsy, overDiscounted, currencyRates]
    norm_num
  · simp [calculatePriceDetails, overDiscounted, calculateAddOns, calculateDiscounts,
      calculateTaxes, convertCurrency]
    norm_num

/-- C24: for every amount and every pair of different currency codes of which at
least one is no key of the rate table, `convertCurrency` yields no number (`NaN`);
for equal codes it returns the amount unchanged, whether or not the code is a key of
the table. -/
theorem convertCurrency_unknown {α : Type} [LinearOrderedField α] (amount : α)
    (codeA codeB : String) (hne : codeA ≠ codeB)
    (habsent : currencyRates α codeA = none ∨ currencyRates α codeB = none) :
    convertCurrency amount codeA codeB = none
      ∧ ∀ code : String, convertCurrency amount code code = some amount := by
  constructor
  · simp only [convertCurrency, hne, if_false]
    rcases habsent with h | h
    · rw [h]
    · rw [h]
      cases currencyRates α codeA <;> rfl
  · intro code
    simp [convertCurrency]

theorem convertCurrency_unknown_witness :
    "USD" ≠ "JPY" ∧ currencyRates ℚ "JPY" = none
      ∧ convertCurrency (100 : ℚ) "USD" "JPY" = none
      ∧ convertCurrency (100 : ℚ) "JPY" "JPY" = some 100 :=
  have hne : "USD" ≠ "JPY" := by decide
  have habs : currencyRates ℚ "JPY" = none := by simp [currencyRates]
  have h := convertCurrency_unknown (100 : ℚ) "USD" "JPY" hne (Or.inr habs)
  ⟨hne, habs, h.1, h.2 "JPY"⟩

/-- C25: for every input whose currency is a key of the rate table, the figures
returned by `calculatePriceDetails` satisfy
`total = base + addOnTotal - discountTotal + taxTotal`. -/
theorem calculatePriceDetails_consistent {α : Type} [LinearOrderedField α]
    (input : PriceInput α) (rate : α) (h : currencyRates α input.currency = some rate) :
    ∃ base addOnTotal discountTotal taxTotal total,
      (calculatePriceDetails input).base = some base
        ∧ (calculatePriceDetails input).addOnTotal = some addOnTotal
        ∧ (calculatePriceDetails input).discountTotal = some discountTotal
        ∧ (calculatePriceDetails input).taxTotal = some taxTotal
        ∧ (calculatePriceDetails input).total = some total
        ∧ total = base + addOnTotal - discountTotal + taxTotal := by
  refine ⟨_, _, _, _, _, convertCurrency_of_USD _ _ _ h, convertCurrency_of_USD _ _ _ h,
    convertCurrency_of_USD _ _ _ h, convertCurrency_of_USD _ _ _ h,
    convertCurrency_of_USD _ _ _ h, ?_⟩
  ring

theorem calculatePriceDetails_consistent_witness :
    currencyRates ℚ euroQuote.currency = some 0.93
      ∧ ∃ base addOnTotal discountTotal taxTotal total,
        (calculatePriceDetails euroQuote).base = some base
          ∧ (calculatePriceDetails euroQuote).addOnTotal = some addOnTotal
          ∧ (calculatePriceDetails euroQuote).discountTotal = some discountTotal
          ∧ (calculatePriceDetails euroQuote).taxTotal = some taxTotal
          ∧ (calculatePriceDetails euroQuote).total = some total
          ∧ total = base + addOnTotal - discountTotal + taxTotal :=
  have h : currencyRates ℚ euroQuote.currency = some 0.93 := by
    simp [currencyRates, euroQuote]
  ⟨h, calculatePriceDetails_consistent euroQuote 0.93 h⟩

/-! ## Closing and translating a polygon -/

section Polygons

variable {α : Type} [LinearOrderedField α]

theorem pointAt_append_left (points extra : List (Point α)) (i : Nat)
    (h : i < points.length) : pointAt (points ++ extra) i = pointAt points i := by
  simp [pointAt, List.getD_eq_getElem?_getD, List.getElem?_append_left h]

theorem pointAt_append_length (points : List (Point α)) (p : Point α) :
    pointAt (points ++ [p]) points.length = p := by
  simp [pointAt, List.getD_eq_getElem?_getD]

theorem pointAt_translate (dx dy : α) (points : List (Point α)) (i : Nat)
    (h : i < points.length) :
    pointAt (translate dx dy points) i
      = ⟨(pointAt points i).x + dx, (pointAt points i).y + dy⟩ := by
  simp [pointAt, translate, List.getD_eq_getElem?_getD, List.getElem?_eq_getElem h]

theorem length_translate (dx dy : α) (points : List (Point α)) :
    (translate dx dy points).length = points.length := by
  simp [translate]

theorem edge_append_first (points : List (Point α)) (i : Nat) (h : i < points.length) :
    edge (points ++ [pointAt points 0]) i = edge points i := by
  have hn : 0 < points.length := by omega
  simp only [edge, List.length_append, List.length_singleton]
  rw [pointAt_append_left _ _ _ h, Nat.mod_eq_of_lt (by omega : i + 1 < points.length + 1)]
  by_cases hi : i + 1 < points.length
  · rw [pointAt_append_left _ _ _ hi, Nat.mod_eq_of_lt hi]
  · have he : i + 1 = points.length := by omega
    rw [he, pointAt_append_length, Nat.mod_self]

theorem edge_append_last (points : List (Point α)) (h : 0 < points.length) :
    edge (points ++ [pointAt points 0]) points.length = (pointAt points 0, pointAt points 0) := by
  simp only [edge, List.length_append, List.length_singleton, Nat.mod_self,
    pointAt_append_length, pointAt_append_left _ _ _ h]

theorem edge_translate (dx dy : α) (points : List (Point α)) (i : Nat)
    (h : i < points.length) :
    edge (translate dx dy points) i
      = (⟨(edge points i).1.x + dx, (edge points i).1.y + dy⟩,
         ⟨(edge points i).2.x + dx, (edge points i).2.y + dy⟩) := by
  have hm : (i + 1) % points.length < points.length := Nat.mod_lt _ (by omega)
  simp only [edge, length_translate, pointAt_translate _ _ _ _ h,
    pointAt_translate _ _ _ _ hm]

theorem foldl_shoelace (points : List (Point α)) (l : List Nat) (a : α) :
    l.foldl (fun area i =>
        let j := (i + 1) % points.length
        area + (pointAt points i).x * (pointAt points j).y
          - (pointAt points j).x * (pointAt points i).y) a
      = a + (l.map fun i => (edge points i).1.x * (edge points i).2.y
          - (edge points i).2.x * (edge points i).1.y).sum := by
  induction l generalizing a with
  | nil => simp
  | cons i l ih =>
    simp only [List.foldl_cons, List.map_cons, List.sum_cons, ih, edge]
    ring

theorem sum_cyclic (f : Nat → α) (n : Nat) :
    ((List.range n).map fun i => f ((i + 1) % n)).sum = ((List.range n).map f).sum := by
  cases n with
  | zero => simp
  | succ m =>
    rw [List.sum_range_succ, List.sum_range_succ', Nat.mod_self, add_comm]
    congr 2
    apply List.map_congr_left
    intro i hi
    rw [Nat.mod_eq_of_lt (by simpa using List.mem_range.mp hi)]

theorem sum_map_shift (l : List Nat) (a b c d e : Nat → α) (dx dy : α) :
    (l.map fun i => a i + dy * (b i - c i) + dx * (d i - e i)).sum
      = (l.map a).sum + dy * ((l.map b).sum - (l.map c).sum)
          + dx * ((l.map d).sum - (l.map e).sum) := by
  induction l with
  | nil => simp
  | cons i l ih =>
    simp only [List.map_cons, List.sum_cons, ih]
    ring

theorem any_congr_mem {β : Type} (l : List β) (f g : β → Bool)
    (h : ∀ x ∈ l, f x = g x) : l.any f = l.any g := by
  induction l with
  | nil => rfl
  | cons x l ih =>
    simp only [List.any_cons]
    rw [h x (List.mem_cons_self _ _), ih fun y hy => h y (List.mem_cons_of_mem _ hy)]

theorem polygonAreaPx_append_first (points : List (Point α)) (h : 3 ≤ points.length) :
    polygonAreaPx (some (points ++ [pointAt points 0])) = polygonAreaPx (some points) := by
  have h1 : ¬ points.length < 3 := by omega
  have h2 : ¬ points.length + 1 < 3 := by omega
  simp only [polygonAreaPx, List.length_append, List.length_singleton, h1, h2, if_false]
  have key := foldl_shoelace (points ++ [pointAt points 0]) (List.range (points.length + 1)) 0
  simp only [List.length_append, List.length_singleton] at key
  rw [key, foldl_shoelace points (List.range points.length) 0, zero_add, zero_add,
    List.sum_range_succ, edge_append_last points (by omega)]
  congr 2
  simp only [sub_self, add_zero]
  congr 1
  apply List.map_congr_left
  intro i hi
  rw [edge_append_first points i (List.mem_range.mp hi)]

theorem polygonAreaPx_translate (dx dy : α) (points : List (Point α)) :
    polygonAreaPx (some (translate dx dy points)) = polygonAreaPx (some points) := by
  simp only [polygonAreaPx, length_translate]
  split
  · rfl
  · have key := foldl_shoelace (translate dx dy points) (List.range points.length) 0
    simp only [length_translate] at key
    rw [key, foldl_shoelace points (List.range points.length) 0, zero_add, zero_add]
    congr 2
    have hterm : ∀ i ∈ List.range points.length,
        (edge (translate dx dy points) i).1.x * (edge (translate dx dy points) i).2.y
          - (edge (translate dx dy points) i).2.x * (edge (translate dx dy points) i).1.y
        = ((edge points i).1.x * (edge points i).2.y
            - (edge points i).2.x * (edge points i).1.y)
          + dy * ((pointAt points i).x - (pointAt points ((i + 1) % points.length)).x)
          + dx * ((pointAt points ((i + 1) % points.length)).y - (pointAt points i).y) := by
      intro i hi
      rw [edge_translate dx dy points i (List.mem_range.mp hi)]
      simp only [edge]
      ring
    rw [List.map_congr_left hterm,
      sum_map_shift (List.range points.length)
        (fun i => (edge points i).1.x * (edge points i).2.y
          - (edge points i).2.x * (edge points i).1.y)
        (fun i => (pointAt points i).x)
        (fun i => (pointAt points ((i + 1) % points.length)).x)
        (fun i => (pointAt points ((i + 1) % points.length)).y)
        (fun i => (pointAt points i).y) dx dy,
      sum_cyclic (fun i => (pointAt points i).x) points.length,
      sum_cyclic (fun i => (pointAt points i).y) points.length]
    ring

theorem ccw_translate (dx dy : α) (p1 p2 p3 : Point α) :
    ccw ⟨p1.x + dx, p1.y + dy⟩ ⟨p2.x + dx, p2.y + dy⟩ ⟨p3.x + dx, p3.y + dy⟩
      = ccw p1 p2 p3 := by
  simp [ccw]

theorem isSelfIntersecting_translate (dx dy : α) (points : List (Point α)) :
    isSelfIntersecting (translate dx dy points) = isSelfIntersecting points := by
  simp only [isSelfIntersecting, length_translate]
  apply any_congr_mem
  intro i hi
  have hi' : i < points.length := List.mem_range.mp hi
  apply any_congr_mem
  intro j hj
  have hj' : j < points.length := by
    have := (List.mem_range'_1.mp hj).2
    omega
  have hn : 0 < points.length := by omega
  rw [pointAt_translate _ _ _ _ hi', pointAt_translate _ _ _ _ hj',
    pointAt_translate _ _ _ _ (Nat.mod_lt (i + 1) hn),
    pointAt_translate _ _ _ _ (Nat.mod_lt (j + 1) hn)]
  simp only [linesIntersect, ccw_translate]

theorem polygonCentroid_translate (dx dy : α) (points : List (Point α))
    (h : points ≠ []) :
    polygonCentroid (translate dx dy points)
      = ⟨(polygonCentroid points).x + dx, (polygonCentroid points).y + dy⟩ := by
  have hn : (points.length : α) ≠ 0 := by
    have : points.length ≠ 0 := fun e => h (List.length_eq_zero.mp e)
    exact_mod_cast this
  have hsum : ∀ (f : Nat → α) (d : α) (l : List Nat),
      (l.map fun i => f i + d).sum = (l.map f).sum + l.length * d := by
    intro f d l
    induction l with
    | nil => simp
    | cons i l ih =>
      simp only [List.map_cons, List.sum_cons, ih, List.length_cons]
      push_cast
      ring
  have hx : (List.range points.length).map (fun i => (pointAt (translate dx dy points) i).x)
      = (List.range points.length).map (fun i => (pointAt points i).x + dx) :=
    List.map_congr_left fun i hi => by
      rw [pointAt_translate _ _ _ _ (List.mem_range.mp hi)]
  have hy : (List.range points.length).map (fun i => (pointAt (translate dx dy points) i).y)
      = (List.range points.length).map (fun i => (pointAt points i).y + dy) :=
    List.map_congr_left fun i hi => by
      rw [pointAt_translate _ _ _ _ (List.mem_range.mp hi)]
  simp only [polygonCentroid, length_translate, foldl_add_eq_sum, zero_add, hx, hy, hsum,
    List.length_range, Point.mk.injEq]
  constructor <;> field_simp <;> ring

end Polygons

theorem distance_translate (dx dy : ℝ) (p q : Point ℝ) :
    distance ⟨p.x + dx, p.y + dy⟩ ⟨q.x + dx, q.y + dy⟩ = distance p q := by
  simp [distance]

theorem distance_self (p : Point ℝ) : distance p p = 0 := by
  simp [distance]

theorem foldl_perimeter (points : List (Point ℝ)) (l : List Nat) (a : ℝ) :
    l.foldl (fun peri i =>
        let j := (i + 1) % points.length
        peri + distance (pointAt points i) (pointAt points j)) a
      = a + (l.map fun i => distance (edge points i).1 (edge points i).2).sum :=
  foldl_add_eq_sum (fun i => distance (edge points i).1 (edge points i).2) l a

theorem edgeLengthsPx_eq (points : List (Point ℝ)) :
    edgeLengthsPx points
      = (List.range points.length).map fun i => distance (edge points i).1 (edge points i).2 :=
  rfl

/-- C26: for every point list with at least 3 points, appending a copy of the first
point leaves `polygonAreaPx` and `polygonPerimeterPx` unchanged, and adds one
zero-length edge at the end of `edgeLengthsPx`. -/
theorem append_first_point (points : List (Point ℝ)) (h : 3 ≤ points.length) :
    polygonAreaPx (some (points ++ [pointAt points 0])) = polygonAreaPx (some points)
      ∧ polygonPerimeterPx (some (points ++ [pointAt points 0]))
          = polygonPerimeterPx (some points)
      ∧ edgeLengthsPx (points ++ [pointAt points 0]) = edgeLengthsPx points ++ [0] := by
  have hedges : edgeLengthsPx (points ++ [pointAt points 0]) = edgeLengthsPx points ++ [0] := by
    rw [edgeLengthsPx_eq, edgeLengthsPx_eq]
    simp only [List.length_append, List.length_singleton, List.range_succ, List.map_append,
      List.map_cons, List.map_nil, edge_append_last points (by omega), distance_self]
    congr 1
    apply List.map_congr_left
    intro i hi
    rw [edge_append_first points i (List.mem_range.mp hi)]
  refine ⟨polygonAreaPx_append_first points h, ?_, hedges⟩
  have h1 : ¬ points.length < 2 := by omega
  have h2 : ¬ points.length + 1 < 2 := by omega
  simp only [polygonPerimeterPx, List.length_append, List.length_singleton, h1, h2, if_false]
  have key := foldl_perimeter (points ++ [pointAt points 0]) (List.range (points.length + 1)) 0
  simp only [List.length_append, List.length_singleton] at key
  rw [key, foldl_perimeter points (List.range points.length) 0]
  have e1 := hedges
  rw [edgeLengthsPx_eq, edgeLengthsPx_eq] at e1
  simp only [List.length_append, List.length_singleton] at e1
  rw [e1]
  simp

theorem append_first_point_witness :
    3 ≤ openTriangle.length
      ∧ polygonAreaPx (some (openTriangle ++ [pointAt openTriangle 0]))
          = polygonAreaPx (some openTriangle)
      ∧ edgeLengthsPx (openTriangle ++ [pointAt openTriangle 0])
          = edgeLengthsPx openTriangle ++ [0] :=
  have h : 3 ≤ openTriangle.length := by decide
  ⟨h, (append_first_point openTriangle h).1, (append_first_point openTriangle h).2.2⟩

/-- C27: for every point list and every offset `(dx, dy)`, translating every point by
the offset leaves `polygonAreaPx`, `polygonPerimeterPx`, `edgeLengthsPx` and the
result of `isSelfIntersecting` unchanged, and moves `polygonCentroid` by exactly
`(dx, dy)`. The centroid of the empty list is `0 / 0` in the program; there the
translated list is the same list. -/
theorem translate_invariant (dx dy : ℝ) (points : List (Point ℝ)) :
    polygonAreaPx (some (translate dx dy points)) = polygonAreaPx (some points)
      ∧ polygonPerimeterPx (some (translate dx dy points)) = polygonPerimeterPx (some points)
      ∧ edgeLengthsPx (translate dx dy points) = edgeLengthsPx points
      ∧ isSelfIntersecting (translate dx dy points) = isSelfIntersecting points
      ∧ (points ≠ [] →
          polygonCentroid (translate dx dy points)
            = ⟨(polygonCentroid points).x + dx, (polygonCentroid points).y + dy⟩)
      ∧ (points = [] → translate dx dy points = points) := by
  have hedges : edgeLengthsPx (translate dx dy points) = edgeLengthsPx points := by
    rw [edgeLengthsPx_eq, edgeLengthsPx_eq, length_translate]
    apply List.map_congr_left
    intro i hi
    rw [edge_translate dx dy points i (List.mem_range.mp hi), distance_translate]
  refine ⟨polygonAreaPx_translate dx dy points, ?_, hedges,
    isSelfIntersecting_translate dx dy points, polygonCentroid_translate dx dy points, ?_⟩
  · simp only [polygonPerimeterPx, length_translate]
    split
    · rfl
    · have key := foldl_perimeter (translate dx dy points) (List.range points.length) 0
      simp only [length_translate] at key
      rw [key, foldl_perimeter points (List.range points.length) 0]
      have e1 := hedges
      rw [edgeLengthsPx_eq, edgeLengthsPx_eq, length_translate] at e1
      rw [e1]
  · intro h
    rw [h]
    rfl

theorem translate_invariant_witness :
    openTriangle ≠ []
      ∧ polygonCentroid (translate 5 7 openTriangle)
          = ⟨(polygonCentroid openTriangle).x + 5, (polygonCentroid openTriangle).y + 7⟩ :=
  have h : openTriangle ≠ [] := by simp [openTriangle]
  ⟨h, (translate_invariant 5 7 openTriangle).2.2.2.2.1 h⟩

end RoofDoctors
